import Mathlib

/-!
# golang-websocket-chat: token authority, connection registry, message store

A shallow embedding of the chat server's core
(`authorization_tools/jwt.go`, `authorization_tools/password.go`,
`authorization_tools/database_connection.go`, `crypt_tools/text_crypt.go`,
`handlers/websocket.go`, `handlers/chat.go`, `handlers/users.go`) together with
theorems about it.

Conventions of the embedding

* Go `error` results are `Option String`: `none` is `nil`.
* Instants (`time.Time`) are natural numbers: nanoseconds since the Unix epoch.
  Clocks set before 1970 are outside the model.
* `*websocket.Conn` values are compared by pointer; a connection is its address.
* The `clients` map is an association list with at most one entry per key.
* Goroutines are not interleaved: `go f(x)` runs `f x` to completion at the
  point where it is spawned. The state functions carry no locks; the calls on
  `clientsMu` are given separately as sequences of events.
* Third-party libraries (`golang-jwt`, `database/sql` with SQLite,
  `encoding/json`, `gorilla/websocket`) are represented by small reference
  models, each documented where it is defined.
* Key derivation, base64 and AES-GCM are parameters (`Crypto`); the facts about
  them that a theorem relies on are hypotheses of that theorem.
* Text is a `String`; a Go string that is handled as raw bytes is a `Bytes`.
-/

namespace Chat

deriving instance DecidableEq for Except

/-! ## Time -/

/-! An instant is a `Nat`: nanoseconds since the Unix epoch. -/

/-- Length of one second, the unit of `time.Duration` being the nanosecond. -/
def second : Nat := 1000000000

/-- Go `time.Hour`. -/
def hour : Nat := 3600 * second

/-- Go `Time.Unix()`: whole seconds since the epoch. -/
def unix (t : Nat) : Int := ((t / second : Nat) : Int)

/-! ## JSON Web Tokens (reference model of `github.com/golang-jwt/jwt/v5`) -/

/-- The `alg` header of a token. Only the HMAC family passes the key function
used by this program. -/
inductive SigningMethod where
  | HS256
  | HS384
  | HS512
  | nonHMAC (alg : String)
  deriving DecidableEq, Repr

/-- Type assertion `token.Method.(*jwt.SigningMethodHMAC)`. -/
def SigningMethod.isHMAC : SigningMethod → Bool
  | .HS256 => true
  | .HS384 => true
  | .HS512 => true
  | .nonHMAC _ => false

/-- A decoded claim value (`interface{}` inside `jwt.MapClaims`): a JSON string,
a JSON number (in whole seconds when read as a date), or anything else. -/
inductive ClaimValue where
  | str (s : String)
  | num (n : Int)
  | other
  deriving DecidableEq, Repr

/-- Go `jwt.MapClaims`. -/
abbrev MapClaims := List (String × ClaimValue)

/-- A string presented as a token. It is either not a well-formed compact JWS,
or it is one; in the latter case the string is determined by its header, its
claims and the key under which its MAC was computed (HMAC is deterministic, and
`MapClaims` are serialised with sorted keys). A MAC verifies under a key exactly
when it was computed with that key. -/
inductive TokenString where
  | malformed (raw : String)
  | jws (method : SigningMethod) (claims : MapClaims) (macKey : String)
  deriving DecidableEq, Repr

/-- Go `*jwt.Token` as returned by a successful `jwt.Parse`. -/
structure Token where
  Method : SigningMethod
  Claims : MapClaims
  Valid : Bool
  deriving DecidableEq, Repr

/-- Library `MapClaims.parseNumericDate`: an absent claim and the number zero
both mean "no date"; a non-numeric value is an error. -/
def parseNumericDate (claims : MapClaims) (key : String) : Except String (Option Int) :=
  match claims.lookup key with
  | none => .ok none
  | some (.num n) => if n = 0 then .ok none else .ok (some n)
  | some _ => .error (key ++ " is invalid")

/-- Library validator for the registered claims checked by default, `exp` and
`nbf` (no leeway, neither claim required): the token has expired unless
`now < exp`, and is not yet valid unless `nbf ≤ now`. -/
def validateClaims (claims : MapClaims) (now : Nat) : Except String Unit :=
  match parseNumericDate claims "exp" with
  | .error e => .error e
  | .ok exp =>
    match parseNumericDate claims "nbf" with
    | .error e => .error e
    | .ok nbf =>
      if (match exp with
          | some e => decide ((now : Int) < e * (second : Int))
          | none => true) = false then .error "token is expired"
      else if (match nbf with
          | some n => decide (n * (second : Int) ≤ (now : Int))
          | none => true) = false then .error "token is not valid yet"
      else .ok ()

/-- The key function passed to `jwt.Parse` by every caller in `jwt.go`. -/
def keyFunc (secretKey : String) (method : SigningMethod) : Except String String :=
  if method.isHMAC then .ok secretKey else .error "неподдерживаемый метод подписи"

/-- Library `jwt.Parse(tokenString, keyFunc)` evaluated at instant `now`:
segments and header are decoded, the key function is consulted, the MAC is
verified, then the claims are validated. -/
def jwtParse (tokenString : TokenString) (secretKey : String) (now : Nat) :
    Except String Token :=
  match tokenString with
  | .malformed _ => .error "token is malformed"
  | .jws method claims macKey =>
    match keyFunc secretKey method with
    | .error e => .error e
    | .ok key =>
      if macKey ≠ key then .error "signature is invalid"
      else
        match validateClaims claims now with
        | .error e => .error e
        | .ok () => .ok { Method := method, Claims := claims, Valid := true }

/-- Library `jwt.NewWithClaims(method, claims)` followed by
`SignedString([]byte(key))`; signing with a byte-slice key never fails for
HMAC. -/
def signedString (method : SigningMethod) (claims : MapClaims) (key : String) :
    Except String TokenString :=
  .ok (.jws method claims key)

/-! ## `authorization_tools/jwt.go` -/

/-- Go `GenerateAccessToken`, with the clock reading and the value of
`JWT_SECRET_KEY` made explicit. -/
def GenerateAccessToken (username : String) (now : Nat) (secretKey : String) :
    Except String TokenString :=
  signedString .HS256
    [("username", .str username), ("exp", .num (unix (now + hour * 1))), ("type", .str "access")]
    secretKey

/-- Go `GenerateRefreshToken`. -/
def GenerateRefreshToken (username : String) (now : Nat) (secretKey : String) :
    Except String TokenString :=
  signedString .HS256
    [("username", .str username), ("exp", .num (unix (now + 30 * 24 * hour))),
      ("type", .str "refresh")]
    secretKey

/-- Go `ValidateAccessToken`: the pair `(bool, error)`. A token returned by
`jwt.Parse` always holds `MapClaims`, so the type assertion on `token.Claims`
cannot fail and has no branch here; the same holds in `GetClaims` and
`ValidateRefreshToken`. -/
def ValidateAccessToken (accessToken : TokenString) (secretKey : String) (now : Nat) :
    Bool × Option String :=
  match jwtParse accessToken secretKey now with
  | .error _ => (false, some "недействительный или истекший access токен")
  | .ok token =>
    if !token.Valid then (false, some "недействительный или истекший access токен")
    else
      match token.Claims.lookup "type" with
      | some (.str tokenType) =>
        if tokenType ≠ "access" then (false, some "неверный тип токена: ожидается access токен")
        else (true, none)
      | _ => (false, some "неверный тип токена: ожидается access токен")

/-- Go `GetClaims`: decodes and verifies, but does not look at the `type` claim. -/
def GetClaims (currentToken : TokenString) (secretKey : String) (now : Nat) :
    Except String MapClaims :=
  match jwtParse currentToken secretKey now with
  | .error _ => .error "недействительный или истекший access токен"
  | .ok token =>
    if !token.Valid then .error "недействительный или истекший access токен"
    else .ok token.Claims

/-! ## The relational store (reference model of `database/sql` over SQLite)

Tables are lists of rows in insertion order. A statement fails only for the
reasons SQL itself gives (`sql.ErrNoRows`, a violated `UNIQUE` constraint);
failures of the driver or of the disk are outside the model. -/

/-- A row of `users`. -/
structure UserRow where
  id : Int
  username : String
  email : String
  password : String
  salt : String
  role : String
  deriving DecidableEq, Repr

/-- A row of `refresh_tokens`. -/
structure RefreshTokenRow where
  id : Int
  user_id : Int
  token : TokenString
  expires_at : Nat
  created_at : Nat
  deriving DecidableEq, Repr

/-- A row of `messages`. -/
structure MessageRow where
  id : Int
  from_user : String
  to_user : String
  content : String
  created_at : Nat
  deriving DecidableEq, Repr

/-- The database behind `*sql.DB`: the three tables created by `InitDB` and the
`AUTOINCREMENT` counters SQLite keeps for two of them. -/
structure DB where
  users : List UserRow
  refresh_tokens : List RefreshTokenRow
  messages : List MessageRow
  refresh_tokens_seq : Int
  messages_seq : Int
  deriving DecidableEq, Repr

/-- The value of `sql.ErrNoRows.Error()`. -/
def errNoRows : String := "sql: no rows in result set"

/-- Rowid chosen by `INTEGER PRIMARY KEY AUTOINCREMENT`: one more than the
largest rowid the table has ever held. -/
def nextRowid (seq : Int) (ids : List Int) : Int :=
  max seq (ids.foldl max 0) + 1

/-- Statement `SELECT id FROM users WHERE username = ?` scanned into an `int`. -/
def DB.queryUserID (db : DB) (username : String) : Except String Int :=
  match db.users.find? (fun u => u.username = username) with
  | some u => .ok u.id
  | none => .error errNoRows

/-- Statement `INSERT INTO refresh_tokens (user_id, token, expires_at, created_at)
VALUES (?, ?, ?, ?)`; the column `token` is `UNIQUE`. -/
def DB.execInsertRefreshToken (db : DB) (userID : Int) (token : TokenString)
    (expiresAt createdAt : Nat) : Except String DB :=
  if db.refresh_tokens.any (fun r => r.token = token) then
    .error "UNIQUE constraint failed: refresh_tokens.token"
  else
    let id := nextRowid db.refresh_tokens_seq (db.refresh_tokens.map (·.id))
    .ok { db with
      refresh_tokens := db.refresh_tokens ++
        [{ id := id, user_id := userID, token := token, expires_at := expiresAt,
           created_at := createdAt }]
      refresh_tokens_seq := id }

/-- Statement `SELECT token FROM refresh_tokens WHERE token = ?` scanned into a
string. -/
def DB.queryRefreshToken (db : DB) (refreshToken : TokenString) : Except String TokenString :=
  match db.refresh_tokens.find? (fun r => r.token = refreshToken) with
  | some r => .ok r.token
  | none => .error errNoRows

/-- Statement `UPDATE refresh_tokens SET token = ?, expires_at = ? WHERE token = ?`.
Every row whose token is the old value is rewritten; the statement is rejected,
leaving the table as it was, when that would store the new value twice. -/
def DB.execUpdateRefreshToken (db : DB) (newToken : TokenString) (expiresAt : Nat)
    (oldToken : TokenString) : Except String DB :=
  let updated := db.refresh_tokens.map (fun r =>
    if r.token = oldToken then { r with token := newToken, expires_at := expiresAt } else r)
  if db.refresh_tokens.any (fun r => r.token = oldToken) ∧
      1 < (updated.filter (fun r => r.token = newToken)).length then
    .error "UNIQUE constraint failed: refresh_tokens.token"
  else .ok { db with refresh_tokens := updated }

/-- Statement `SELECT from_user FROM messages WHERE id = ?` scanned into a
string. -/
def DB.queryMessageAuthor (db : DB) (messageID : Int) : Except String String :=
  match db.messages.find? (fun m => m.id = messageID) with
  | some m => .ok m.from_user
  | none => .error errNoRows

/-- Statement `DELETE FROM messages WHERE id = ?`. -/
def DB.execDeleteMessage (db : DB) (messageID : Int) : Except String DB :=
  .ok { db with messages := db.messages.filter (fun m => m.id ≠ messageID) }

/-- Statement `UPDATE messages SET content = ? WHERE id = ? AND from_user = ?`,
with the number of rows it matched (what SQLite reports as rows affected). -/
def DB.execUpdateMessage (db : DB) (newContent : String) (messageID : Int) (username : String) :
    Except String (DB × Nat) :=
  .ok ({ db with messages := db.messages.map (fun m =>
          if m.id = messageID ∧ m.from_user = username then { m with content := newContent }
          else m) },
       (db.messages.filter (fun m => m.id = messageID ∧ m.from_user = username)).length)

/-- Statement `INSERT INTO messages (from_user, to_user, content, created_at)
VALUES (?, ?, ?, ?)`, with `LastInsertId()`. -/
def DB.execInsertMessage (db : DB) (fromUser toUser content : String) (createdAt : Nat) :
    Except String (DB × Int) :=
  let id := nextRowid db.messages_seq (db.messages.map (·.id))
  .ok ({ db with
          messages := db.messages ++
            [{ id := id, from_user := fromUser, to_user := toUser, content := content,
               created_at := createdAt }]
          messages_seq := id },
       id)

/-! ## `authorization_tools/jwt.go`, the persisted refresh tokens -/

/-- Go `SetRefreshTokenDB`; both readings of the clock are `now`. -/
def SetRefreshTokenDB (username : String) (token : TokenString) (now : Nat) (db : DB) :
    Option String × DB :=
  match db.queryUserID username with
  | .error e => if e = errNoRows then (some "пользователь не найден", db) else (some e, db)
  | .ok userID =>
    match db.execInsertRefreshToken userID token (now + 30 * 24 * hour) now with
    | .error e => (some e, db)
    | .ok db1 => (none, db1)

/-- Go `ValidateRefreshToken`: the pair `(bool, error)`. -/
def ValidateRefreshToken (refreshToken : TokenString) (secretKey : String) (now : Nat)
    (db : DB) : Bool × Option String :=
  match jwtParse refreshToken secretKey now with
  | .error _ => (false, some "недействительный или истекший refresh токен")
  | .ok token =>
    if !token.Valid then (false, some "недействительный или истекший refresh токен")
    else
      match token.Claims.lookup "type" with
      | some (.str tokenType) =>
        if tokenType ≠ "refresh" then
          (false, some "неверный тип токена: ожидается refresh токен")
        else
          match db.queryRefreshToken refreshToken with
          | .error e =>
            if e = errNoRows then (false, some "refresh токен не найден в базе")
            else (false, some ("ошибка при запросе к базе: " ++ e))
          | .ok _ => (true, none)
      | _ => (false, some "неверный тип токена: ожидается refresh токен")

/-- Go `UpdateRefreshToken`. -/
def UpdateRefreshToken (refreshToken newRefreshToken : TokenString) (now : Nat) (db : DB) :
    Option String × DB :=
  match db.execUpdateRefreshToken newRefreshToken (now + 30 * 24 * hour) refreshToken with
  | .error e => (some e, db)
  | .ok db1 => (none, db1)

/-- The request header `Authorization`, by the cases `ExtractToken` tells apart:
the empty string, a string that does not start with `Bearer `, and `Bearer `
followed by a token string. -/
inductive AuthorizationHeader where
  | empty
  | noBearer (raw : String)
  | bearer (token : TokenString)
  deriving DecidableEq, Repr

/-- Go `ExtractToken`. -/
def ExtractToken (authorizationHeader : AuthorizationHeader) : Except String TokenString :=
  match authorizationHeader with
  | .empty => .error "заголовок Authorization отсутствует"
  | .noBearer _ => .error "неверный формат заголовка Authorization"
  | .bearer token => .ok token

/-! ## `handlers/users.go`: token rotation -/

/-- A value inside a `gin.H` body. -/
inductive BodyValue where
  | text (s : String)
  | token (t : TokenString)
  deriving DecidableEq, Repr

/-- What `c.JSON(status, body)` sends. -/
structure Response where
  status : Nat
  body : List (String × BodyValue)
  deriving DecidableEq, Repr

/-- Successive readings of the clock during one run of the `RefreshToken`
handler, in program order. -/
structure RefreshClock where
  atValidate : Nat
  atClaims : Nat
  atAccess : Nat
  atRefresh : Nat
  atUpdate : Nat
  deriving DecidableEq, Repr

/-- Go `RefreshToken` (the closure returned by it). A failed type assertion
`claims["username"].(string)` panics; `gin.Default()` recovers with status 500
and no body. -/
def RefreshToken (authorizationHeader : AuthorizationHeader) (secretKey : String)
    (clock : RefreshClock) (db : DB) : Response × DB :=
  match ExtractToken authorizationHeader with
  | .error e => (⟨400, [("error", .text e)]⟩, db)
  | .ok token =>
    match ValidateRefreshToken token secretKey clock.atValidate db with
    | (_, some e) => (⟨400, [("error", .text e)]⟩, db)
    | (false, none) => (⟨400, [("error", .text "Ошибка проверки токена")]⟩, db)
    | (true, none) =>
      match GetClaims token secretKey clock.atClaims with
      | .error e => (⟨500, [("error", .text e)]⟩, db)
      | .ok claims =>
        match claims.lookup "username" with
        | some (.str username) =>
          match GenerateAccessToken username clock.atAccess secretKey with
          | .error e => (⟨400, [("error", .text e)]⟩, db)
          | .ok accessToken =>
            match GenerateRefreshToken username clock.atRefresh secretKey with
            | .error e => (⟨400, [("error", .text e)]⟩, db)
            | .ok refreshToken =>
              match UpdateRefreshToken token refreshToken clock.atUpdate db with
              | (some e, db1) => (⟨500, [("error", .text e)]⟩, db1)
              | (none, db1) =>
                (⟨200, [("accessToken", .token accessToken),
                        ("refreshToken", .token refreshToken)]⟩, db1)
        | _ => (⟨500, []⟩, db)

/-! ## Connections and the registry (`handlers/websocket.go`) -/

/-- A `*websocket.Conn`, identified by its address. -/
structure Conn where
  addr : Nat
  deriving DecidableEq, Repr

/-- Go `Message`, the struct a `send_message` frame is decoded into. -/
structure Message where
  ID : Int
  From : String
  To : String
  Content : String
  CreatedAt : Nat
  deriving DecidableEq, Repr

/-- Go `SendMessageEvent`. The field `Created` is `CreatedAt` rendered by
`Format(time.RFC3339)`, a text with a resolution of one second; it is
represented by the second it names. -/
structure SendMessageEvent where
  Action : String
  MessageID : Int
  From : String
  To : String
  Content : String
  Created : Int
  deriving DecidableEq, Repr

/-- Go `DeleteMessageEvent`. -/
structure DeleteMessageEvent where
  Action : String
  MessageID : Int
  deriving DecidableEq, Repr

/-- The output of `json.Marshal` for the three values this program sends, by
the value that was marshalled (marshalling them cannot fail). The third is the
map built by `SendEditMessageNotification`. -/
inductive Payload where
  | sendMessage (event : SendMessageEvent)
  | deleteMessage (event : DeleteMessageEvent)
  | editMessage (action : String) (message_id : Int) (new_content : String)
  deriving DecidableEq, Repr

/-- One call of `conn.WriteMessage(websocket.TextMessage, data)` and whether it
returned `nil`. -/
structure WriteRecord where
  conn : Conn
  data : Payload
  ok : Bool
  deriving DecidableEq, Repr

/-- Go `map[string]*websocket.Conn`. -/
abbrev Clients := List (String × Conn)

/-- Map read `m[k]` with the comma-ok form. -/
def mapGet (m : Clients) (k : String) : Option Conn := m.lookup k

/-- Builtin `delete(m, k)`. -/
def mapDelete (m : Clients) (k : String) : Clients := m.filter (fun e => e.1 ≠ k)

/-- Map assignment `m[k] = v`. -/
def mapSet (m : Clients) (k : String) (v : Conn) : Clients := (k, v) :: mapDelete m k

/-- Everything the handlers read and write: the database, the package variable
`clients`, and the transports. `writes` records every call of `WriteMessage` in
order, `closed` the connections on which `Close` was called, and `broken` the
connections whose peer is gone, so that a write on them fails. -/
structure World where
  db : DB
  clients : Clients
  writes : List WriteRecord
  closed : List Conn
  broken : List Conn
  deriving DecidableEq, Repr

/-- Library `conn.WriteMessage`: fails on a connection that was closed or whose
peer is gone. -/
def WriteMessage (conn : Conn) (data : Payload) (w : World) : Option String × World :=
  if conn ∈ w.closed ∨ conn ∈ w.broken then
    (some "write failed", { w with writes := w.writes ++ [⟨conn, data, false⟩] })
  else
    (none, { w with writes := w.writes ++ [⟨conn, data, true⟩] })

/-- Library `conn.Close`. -/
def Close (conn : Conn) (w : World) : World :=
  { w with closed := conn :: w.closed }

/-- Go `SaveMessageToDB`: the returned pair and the message with its `ID`
updated through the pointer. -/
def SaveMessageToDB (db : DB) (msg : Message) : (Int × Option String) × Message × DB :=
  match db.execInsertMessage msg.From msg.To msg.Content msg.CreatedAt with
  | .error e => ((0, some e), msg, db)
  | .ok (db1, id) => ((id, none), { msg with ID := id }, db1)

/-- The body shared by the two delivery blocks of `sendPrivateMessage`: write to
the connection that was looked up for `user`; if that fails, close it and delete
the entry of `user`, provided the registry still maps `user` to that very
connection. -/
def deliver (user : String) (conn : Conn) (msgBytes : Payload) (w : World) : World :=
  match WriteMessage conn msgBytes w with
  | (some _, w1) =>
    let w2 := Close conn w1
    if mapGet w2.clients user = some conn then
      { w2 with clients := mapDelete w2.clients user }
    else w2
  | (none, w1) => w1

/-- Go `sendPrivateMessage`. -/
def sendPrivateMessage (msg : Message) (w : World) : World :=
  let event : SendMessageEvent :=
    { Action := "send_message", MessageID := msg.ID, From := msg.From, To := msg.To,
      Content := msg.Content, Created := unix msg.CreatedAt }
  let msgBytes := Payload.sendMessage event
  let recipient := mapGet w.clients msg.To
  let sender := mapGet w.clients msg.From
  let w1 :=
    match recipient with
    | some recipientConn => deliver msg.To recipientConn msgBytes w
    | none => w
  match sender with
  | some senderConn => deliver msg.From senderConn msgBytes w1
  | none => w1

/-- The `for username, conn := range clients` loop of the two broadcast
functions. Ranging over a Go map while deleting the entry just visited visits
every entry the map had when the loop began exactly once. -/
def broadcast (data : Payload) : List (String × Conn) → World → World
  | [], w => w
  | (username, conn) :: rest, w =>
    match WriteMessage conn data w with
    | (some _, w1) =>
      let w2 := Close conn w1
      broadcast data rest { w2 with clients := mapDelete w2.clients username }
    | (none, w1) => broadcast data rest w1

/-- Go `SendDeleteMessageNotification`. -/
def SendDeleteMessageNotification (messageID : Int) (w : World) : World :=
  let event : DeleteMessageEvent := { Action := "delete_message", MessageID := messageID }
  broadcast (.deleteMessage event) w.clients w

/-- Go `SendEditMessageNotification`. -/
def SendEditMessageNotification (messageID : Int) (newContent : String) (w : World) : World :=
  broadcast (.editMessage "edit_message" messageID newContent) w.clients w

/-! ## `handlers/chat.go`: authorised mutation -/

/-- Go `DeleteMessage`. -/
def DeleteMessage (messageID : Int) (username : String) (w : World) : Option String × World :=
  match w.db.queryMessageAuthor messageID with
  | .error e => (some ("ошибка при получении автора сообщения: " ++ e), w)
  | .ok author =>
    if author ≠ username then
      (some ("пользователь " ++ username ++ " пытался удалить чужое сообщение"), w)
    else
      match w.db.execDeleteMessage messageID with
      | .error e =>
        (some ("ошибка при удалении сообщения " ++ toString messageID ++ ": " ++ e), w)
      | .ok db1 => (none, SendDeleteMessageNotification messageID { w with db := db1 })

/-- Go `EditMessage`. -/
def EditMessage (messageID : Int) (username : String) (newContent : String) (w : World) :
    Option String × World :=
  match w.db.queryMessageAuthor messageID with
  | .error e => (some ("ошибка при получении автора сообщения: " ++ e), w)
  | .ok author =>
    if author ≠ username then
      (some ("пользователь " ++ username ++ " пытался удалить чужое сообщение"), w)
    else
      match w.db.execUpdateMessage newContent messageID username with
      | .error e => (some ("ошибка обновления сообщения: " ++ e), w)
      | .ok (db1, rowsAffected) =>
        if rowsAffected = 0 then
          (some "сообщение не найдено или у вас нет прав", { w with db := db1 })
        else (none, SendEditMessageNotification messageID newContent { w with db := db1 })

/-! ## Inbound frames (reference model of `encoding/json`) -/

/-- A JSON value as far as the dispatcher can tell values apart. A number
carries the integer obtained by converting its `float64` reading with `int(..)`
and whether its text is a plain integer literal; arrays and objects nested
inside a frame are never inspected. -/
inductive JValue where
  | null
  | bool (b : Bool)
  | number (trunc : Int) (intLiteral : Bool)
  | string (s : String)
  | composite
  deriving DecidableEq, Repr

/-- The bytes returned by `conn.ReadMessage`, by what they are as JSON text:
not JSON at all, the literal `null`, some other value that is not an object, or
an object with its members in textual order. -/
inductive Frame where
  | invalid
  | null
  | nonObject
  | object (members : List (String × JValue))
  deriving DecidableEq, Repr

/-- Library `json.Unmarshal(msgBytes, &event)` for `event` of type
`map[string]interface{}`. The resulting map lists later members first, so that
a lookup returns the value a repeated key ends up with. -/
def unmarshalEvent (msgBytes : Frame) : Except String (List (String × JValue)) :=
  match msgBytes with
  | .invalid => .error "invalid character"
  | .null => .ok []
  | .nonObject => .error "json: cannot unmarshal into Go value of type map[string]interface {}"
  | .object members => .ok members.reverse

/-- Case folding of an object key as used when keys are matched to struct
fields. The five field names of `Message` contain no letter with a non-ASCII
case variant, so folding ASCII letters decides the match. -/
def foldName (key : String) : String := String.mk (key.data.map Char.toLower)

/-- Whether an integer fits Go `int` on a 64-bit platform. -/
def fitsInt64 (n : Int) : Bool :=
  decide (-9223372036854775808 ≤ n ∧ n ≤ 9223372036854775807)

/-- Decoding of one object member into the `Message` under construction. Keys
are matched to the JSON names of the struct fields without regard to case; a
`null` leaves the field alone; a value of the wrong kind records an error and
decoding goes on. `parseTime` is `time.Time.UnmarshalJSON` on the content of a
JSON string. -/
def decodeMember (parseTime : String → Option Nat) (st : Message × Option String)
    (member : String × JValue) : Message × Option String :=
  let saveError (e : String) : Message × Option String :=
    (st.1, match st.2 with
           | some e0 => some e0
           | none => some e)
  if foldName member.1 = "id" then
    match member.2 with
    | .null => st
    | .number n true => if fitsInt64 n then ({ st.1 with ID := n }, st.2)
                        else saveError "json: cannot unmarshal number into Go struct field Message.id of type int"
    | _ => saveError "json: cannot unmarshal into Go struct field Message.id of type int"
  else if foldName member.1 = "from" then
    match member.2 with
    | .null => st
    | .string v => ({ st.1 with From := v }, st.2)
    | _ => saveError "json: cannot unmarshal into Go struct field Message.from of type string"
  else if foldName member.1 = "to" then
    match member.2 with
    | .null => st
    | .string v => ({ st.1 with To := v }, st.2)
    | _ => saveError "json: cannot unmarshal into Go struct field Message.to of type string"
  else if foldName member.1 = "content" then
    match member.2 with
    | .null => st
    | .string v => ({ st.1 with Content := v }, st.2)
    | _ => saveError "json: cannot unmarshal into Go struct field Message.content of type string"
  else if foldName member.1 = "created_at" then
    match member.2 with
    | .null => st
    | .string v =>
      match parseTime v with
      | some t => ({ st.1 with CreatedAt := t }, st.2)
      | none => saveError "parsing time: cannot parse"
    | _ => saveError "Time.UnmarshalJSON: input is not a JSON string"
  else st

/-- The zero value of `Message` declared by `var msg Message`. -/
def zeroMessage : Message := { ID := 0, From := "", To := "", Content := "", CreatedAt := 0 }

/-- Library `json.Unmarshal(msgBytes, &msg)` for `msg` of type `Message`. -/
def unmarshalMessage (parseTime : String → Option Nat) (msgBytes : Frame) :
    Except String Message :=
  match msgBytes with
  | .invalid => .error "invalid character"
  | .null => .ok zeroMessage
  | .nonObject => .error "json: cannot unmarshal into Go value of type handlers.Message"
  | .object members =>
    match members.foldl (decodeMember parseTime) (zeroMessage, none) with
    | (_, some e) => .error e
    | (msg, none) => .ok msg

/-! ## `handlers/websocket.go`: the dispatcher -/

/-- Go `ExtractUsername`. -/
def ExtractUsername (tokenString : TokenString) (secretKey : String) (now : Nat) :
    Except String String :=
  match GetClaims tokenString secretKey now with
  | .error e => .error ("не удалось получить claims из токена: " ++ e)
  | .ok claims =>
    match claims.lookup "username" with
    | some (.str username) =>
      if username = "" then .error "токен не содержит username" else .ok username
    | _ => .error "токен не содержит username"

/-- What `conn.ReadMessage()` returned. -/
inductive ReadResult where
  | error (err : String)
  | message (msgBytes : Frame)
  deriving DecidableEq, Repr

/-- The part of `WebSocketHandler` before its `for` loop: the token is read
from the query, the user name is extracted, the transport is upgraded (the
result of `upgrader.Upgrade` is `upgrade`), and the connection is stored in
`clients`. The result is the response sent when the handler returns early, or
the user name and connection with which the loop is entered. -/
def WebSocketHandler_connect (tokenString : TokenString) (secretKey : String) (now : Nat)
    (upgrade : Except String Conn) (w : World) : Except Response (String × Conn) × World :=
  match ExtractUsername tokenString secretKey now with
  | .error _ => (.error ⟨401, [("error", .text "Неверный токен")]⟩, w)
  | .ok username =>
    match upgrade with
    | .error _ => (.error ⟨400, [("error", .text "Ошибка WebSocket")]⟩, w)
    | .ok conn => (.ok (username, conn), { w with clients := mapSet w.clients username conn })

/-- One iteration of the `for` loop of `WebSocketHandler`, given what
`ReadMessage` returned and the reading of the clock. The boolean is `false`
when the iteration leaves the loop through `break`. -/
def WebSocketHandler_iteration (parseTime : String → Option Nat) (username : String)
    (conn : Conn) (now : Nat) (read : ReadResult) (w : World) : Bool × World :=
  match read with
  | .error _ =>
    let w1 := Close conn w
    (false, { w1 with clients := mapDelete w1.clients username })
  | .message msgBytes =>
    match unmarshalEvent msgBytes with
    | .error _ => (true, w)
    | .ok event =>
      match event.lookup "action" with
      | some (.string action) =>
        if action = "send_message" then
          match unmarshalMessage parseTime msgBytes with
          | .error _ => (true, w)
          | .ok msg =>
            let msg1 := { msg with From := username, CreatedAt := now }
            match SaveMessageToDB w.db msg1 with
            | ((_, some _), _, _) => (true, w)
            | ((_, none), msg2, db1) => (true, sendPrivateMessage msg2 { w with db := db1 })
        else if action = "delete_message" then
          match event.lookup "message_id" with
          | some (.number messageID _) => (true, (DeleteMessage messageID username w).2)
          | _ => (true, w)
        else if action = "edit_message" then
          match event.lookup "message_id" with
          | some (.number messageID _) =>
            match event.lookup "new_content" with
            | some (.string newContent) =>
              if newContent = "" then (true, w)
              else (true, (EditMessage messageID username newContent w).2)
            | _ => (true, w)
          | _ => (true, w)
        else (true, w)
      | _ => (true, w)

/-- The `for` loop of `WebSocketHandler` run on the successive results of
`ReadMessage`, each with the reading of the clock at that iteration. The
boolean is `true` when the loop is still waiting for the next frame after the
last given result. -/
def WebSocketHandler_loop (parseTime : String → Option Nat) (username : String) (conn : Conn) :
    List (Nat × ReadResult) → World → Bool × World
  | [], w => (true, w)
  | (now, read) :: rest, w =>
    match WebSocketHandler_iteration parseTime username conn now read w with
    | (false, w1) => (false, w1)
    | (true, w1) => WebSocketHandler_loop parseTime username conn rest w1

/-- Go `WebSocketHandler`: the connect phase followed by the receive loop. The
response is `none` once the transport has been upgraded. -/
def WebSocketHandler (tokenString : TokenString) (secretKey : String) (now : Nat)
    (upgrade : Except String Conn) (parseTime : String → Option Nat)
    (reads : List (Nat × ReadResult)) (w : World) : Option Response × World :=
  match WebSocketHandler_connect tokenString secretKey now upgrade w with
  | (.error response, w1) => (some response, w1)
  | (.ok (username, conn), w1) =>
    (none, (WebSocketHandler_loop parseTime username conn reads w1).2)

/-! ## Byte strings and the libraries for hashing, encoding and encryption -/

/-- A Go string or `[]byte` handled as raw bytes. -/
abbrev Bytes := List (Fin 256)

/-- Conversion `[]byte(s)` of a text: its UTF-8 encoding. -/
def bytesOf (s : String) : Bytes := (s.data.flatMap String.utf8EncodeChar).map (fun b => b.val)

/-- The library functions used by `password.go` and `text_crypt.go`, taken as
parameters: `argon2.IDKey(password, salt, time, memory, threads, keyLen)`,
`base64.URLEncoding.EncodeToString`, `base64.StdEncoding.EncodeToString`,
`base64.StdEncoding.DecodeString`, and the `Seal` and `Open` of the AES-GCM
instance made from a key, each called with a nil destination and no additional
data. -/
structure Crypto where
  IDKey : Bytes → Bytes → Nat → Nat → Nat → Nat → Bytes
  urlEncodeToString : Bytes → String
  stdEncodeToString : Bytes → String
  stdDecodeString : String → Except String Bytes
  gcmSeal : Bytes → Bytes → Bytes → Bytes
  gcmOpen : Bytes → Bytes → Bytes → Except String Bytes

/-- Fact about `argon2.IDKey`: the derived key has the requested length. -/
def Crypto.KeyHasLength (lib : Crypto) : Prop :=
  ∀ password salt time memory threads keyLen,
    (lib.IDKey password salt time memory threads keyLen).length = keyLen

/-- Fact about `base64.URLEncoding`: different byte strings have different
encodings. -/
def Crypto.URLEncodingInjective (lib : Crypto) : Prop :=
  ∀ a b, lib.urlEncodeToString a = lib.urlEncodeToString b → a = b

/-- Fact about `base64.StdEncoding`: decoding undoes encoding. -/
def Crypto.DecodeUndoesEncode (lib : Crypto) : Prop :=
  ∀ data, lib.stdDecodeString (lib.stdEncodeToString data) = .ok data

/-- Fact about AES-GCM: `Open` undoes `Seal` under the same key and nonce. -/
def Crypto.OpenUndoesSeal (lib : Crypto) : Prop :=
  ∀ key nonce plaintext, lib.gcmOpen key nonce (lib.gcmSeal key nonce plaintext) = .ok plaintext

/-- Library `aes.NewCipher`: the key must have 16, 24 or 32 bytes. -/
def aesNewCipher (key : Bytes) : Except String Unit :=
  if key.length = 16 ∨ key.length = 24 ∨ key.length = 32 then .ok ()
  else .error "crypto/aes: invalid key size"

/-- Library `cipher.NewGCM(block)` followed by `NonceSize()`: the standard nonce
size; `NewGCM` does not fail for an AES block. -/
def gcmNonceSize : Nat := 12

/-! ## `authorization_tools/password.go` -/

/-- Go `HashPassword`. -/
def HashPassword (lib : Crypto) (password salt : Bytes) : String × Option String :=
  let hash := lib.IDKey password salt 1 (64 * 1024) 1 32
  (lib.urlEncodeToString (salt ++ hash), none)

/-- Go `VerifyPassword`. -/
def VerifyPassword (lib : Crypto) (password : Bytes) (storedHash : String) (salt : Bytes) :
    Bool × Option String :=
  match HashPassword lib password salt with
  | (_, some err) => (false, some err)
  | (checkHash, none) => (decide (checkHash = storedHash), none)

/-! ## `crypt_tools/text_crypt.go` -/

/-- Go `deriveKeyArgon2id`. -/
def deriveKeyArgon2id (lib : Crypto) (password salt : Bytes) : Bytes :=
  lib.IDKey password salt 1 (64 * 1024) 4 32

/-- Go `EncryptAES`. `saltDraw` is the outcome of filling the 16-byte salt
buffer from `rand.Reader`, `nonceDraw` that of filling the nonce buffer. -/
def EncryptAES (lib : Crypto) (saltDraw nonceDraw : Except String Bytes)
    (plainText password : Bytes) : Except String String :=
  match saltDraw with
  | .error err => .error err
  | .ok salt =>
    let key := deriveKeyArgon2id lib password salt
    match aesNewCipher key with
    | .error err => .error err
    | .ok () =>
      match nonceDraw with
      | .error err => .error err
      | .ok nonce =>
        let cipherText := lib.gcmSeal key nonce plainText
        let result := salt ++ (nonce ++ cipherText)
        .ok (lib.stdEncodeToString result)

/-- Go `DecryptAES`. -/
def DecryptAES (lib : Crypto) (cipherTextB64 : String) (password : Bytes) :
    Except String Bytes :=
  match lib.stdDecodeString cipherTextB64 with
  | .error err => .error err
  | .ok data =>
    if data.length < 16 then .error "недопустимая длина данных"
    else
      let salt := data.take 16
      let key := deriveKeyArgon2id lib password salt
      match aesNewCipher key with
      | .error err => .error err
      | .ok () =>
        let nonceSize := gcmNonceSize
        if data.length < 16 + nonceSize then .error "недопустимая длина данных"
        else
          let nonce := (data.drop 16).take nonceSize
          let encryptedData := data.drop (16 + nonceSize)
          match lib.gcmOpen key nonce encryptedData with
          | .error err => .error err
          | .ok plainText => .ok plainText

/-! ## `authorization_tools/database_connection.go` and the `Login` handler -/

/-- Go `FindUsername`: the statement `SELECT username, password, salt FROM users
WHERE username=?` scanned into three strings. -/
def FindUsername (username : String) (db : DB) : (String × String) × Option String :=
  match db.users.find? (fun u => u.username = username) with
  | some u => ((u.password, u.salt), none)
  | none => (("", ""), some errNoRows)

/-- The body of a `POST /login` request: bytes that do not decode into the
credentials struct, or the two decoded strings. -/
inductive LoginBody where
  | malformed (err : String)
  | credentials (Username Password : String)
  deriving DecidableEq, Repr

/-- Library `c.ShouldBindJSON(&credentials)` with both fields tagged
`binding:"required"`: an empty field fails validation. -/
def ShouldBindJSON (body : LoginBody) : Except String (String × String) :=
  match body with
  | .malformed err => .error err
  | .credentials username password =>
    if username = "" then
      .error "Key: 'Username' Error:Field validation for 'Username' failed on the 'required' tag"
    else if password = "" then
      .error "Key: 'Password' Error:Field validation for 'Password' failed on the 'required' tag"
    else .ok (username, password)

/-- Successive readings of the clock during one run of the `Login` handler. -/
structure LoginClock where
  atAccess : Nat
  atRefresh : Nat
  atStore : Nat
  deriving DecidableEq, Repr

/-- Go `Login` (the closure returned by it). -/
def Login (lib : Crypto) (body : LoginBody) (secretKey : String) (clock : LoginClock)
    (db : DB) : Response × DB :=
  match ShouldBindJSON body with
  | .error e => (⟨400, [("error", .text e)]⟩, db)
  | .ok (username, password) =>
    match FindUsername username db with
    | (_, some e) => (⟨400, [("error", .text e)]⟩, db)
    | ((storedHash, storedSalt), none) =>
      match VerifyPassword lib (bytesOf password) storedHash (bytesOf storedSalt) with
      | (_, some e) => (⟨400, [("error", .text e)]⟩, db)
      | (false, none) => (⟨400, [("error", .text "Ошибка учетной записи")]⟩, db)
      | (true, none) =>
        match GenerateAccessToken username clock.atAccess secretKey with
        | .error e => (⟨400, [("error", .text e)]⟩, db)
        | .ok accessToken =>
          match GenerateRefreshToken username clock.atRefresh secretKey with
          | .error e => (⟨400, [("error", .text e)]⟩, db)
          | .ok refreshToken =>
            match SetRefreshTokenDB username refreshToken clock.atStore db with
            | (some e, db1) => (⟨400, [("error", .text e)]⟩, db1)
            | (none, db1) =>
              (⟨200, [("username", .text username), ("accessToken", .token accessToken),
                      ("refreshToken", .token refreshToken)]⟩, db1)

/-- The claims written by the two generators. -/
def generatedClaims (username : String) (exp : Int) (type : String) : MapClaims :=
  [("username", .str username), ("exp", .num exp), ("type", .str type)]

/-! ## Vocabulary of the statements -/

/-- The calls of `WriteMessage` made so far, each as the connection written to
and the bytes passed, in order. -/
def attempts (w : World) : List (Conn × Payload) := w.writes.map (fun r => (r.conn, r.data))

/-- Whether a write on `conn` returns `nil` in state `w`. -/
def writable (conn : Conn) (w : World) : Prop := conn ∉ w.closed ∧ conn ∉ w.broken

/-- The notification `sendPrivateMessage` marshals for a stored message. -/
def sendMessagePayload (id : Int) (sender recipient content : String) (createdAt : Nat) :
    Payload :=
  .sendMessage { Action := "send_message", MessageID := id, From := sender, To := recipient,
                 Content := content, Created := unix createdAt }

/-- Whether an object key is decoded into one of the fields `From`, `ID`,
`CreatedAt` of `Message`. -/
def spoofable (key : String) : Bool :=
  decide (foldName key = "from" ∨ foldName key = "id" ∨ foldName key = "created_at")

/-- A frame with the members for `from`, `id` and `created_at` removed. Two
frames differ only in those fields when this yields the same frame for both. -/
def Frame.withoutSpoofable : Frame → Frame
  | .object members => .object (members.filter (fun m => !spoofable m.1))
  | .invalid => .invalid
  | .null => .null
  | .nonObject => .nonObject

/-! ## Lock discipline of the registry

The state functions above run without interleaving and carry no locks. The
functions below give, for the same runs, the sequence of calls on `clientsMu`
and of accesses to the map `clients`, in program order. -/

/-- A call on `clientsMu` or an access to `clients`. -/
inductive LockEvent where
  | Lock
  | Unlock
  | RLock
  | RUnlock
  | mapRead (key : String)
  | mapAssign (key : String)
  | mapDelete (key : String)
  deriving DecidableEq, Repr

/-- What the running goroutine holds of `clientsMu`. -/
inductive LockMode where
  | unlocked
  | shared
  | exclusive
  deriving DecidableEq, Repr

/-- The effect of one event on what is held; `none` when the event is an
assignment to or a deletion from the map made without the exclusive lock. -/
def lockStep (mode : LockMode) (ev : LockEvent) : Option LockMode :=
  match ev with
  | .Lock => some .exclusive
  | .Unlock => some .unlocked
  | .RLock => some .shared
  | .RUnlock => some .unlocked
  | .mapRead _ => some mode
  | .mapAssign _ => if mode = .exclusive then some mode else none
  | .mapDelete _ => if mode = .exclusive then some mode else none

/-- Whether, in a sequence of events started in the given mode, every mutation
of the map is made while the exclusive lock is held. -/
def mutatesUnderLock : LockMode → List LockEvent → Bool
  | _, [] => true
  | mode, ev :: rest =>
    match lockStep mode ev with
    | some mode1 => mutatesUnderLock mode1 rest
    | none => false

/-- Events of the connect phase of `WebSocketHandler`. -/
def WebSocketHandler_connect_events (tokenString : TokenString) (secretKey : String) (now : Nat)
    (upgrade : Except String Conn) : List LockEvent :=
  match ExtractUsername tokenString secretKey now with
  | .error _ => []
  | .ok username =>
    match upgrade with
    | .error _ => []
    | .ok _ => [.Lock, .mapAssign username, .Unlock]

/-- Events of the iteration of `WebSocketHandler` in which `ReadMessage` returns
an error. -/
def WebSocketHandler_disconnect_events (username : String) : List LockEvent :=
  [.Lock, .mapDelete username, .Unlock]

/-- Events of one delivery block of `sendPrivateMessage` (see `deliver`). -/
def deliver_events (user : String) (conn : Conn) (msgBytes : Payload) (w : World) :
    List LockEvent :=
  match WriteMessage conn msgBytes w with
  | (some _, w1) =>
    let w2 := Close conn w1
    if mapGet w2.clients user = some conn then
      [.Lock, .mapRead user, .mapDelete user, .Unlock]
    else [.Lock, .mapRead user, .Unlock]
  | (none, _) => []

/-- Events of `sendPrivateMessage`. -/
def sendPrivateMessage_events (msg : Message) (w : World) : List LockEvent :=
  let msgBytes := sendMessagePayload msg.ID msg.From msg.To msg.Content msg.CreatedAt
  let recipient := mapGet w.clients msg.To
  let sender := mapGet w.clients msg.From
  let w1 :=
    match recipient with
    | some recipientConn => deliver msg.To recipientConn msgBytes w
    | none => w
  [.RLock, .mapRead msg.To, .mapRead msg.From, .RUnlock]
    ++ (match recipient with
        | some recipientConn => deliver_events msg.To recipientConn msgBytes w
        | none => [])
    ++ (match sender with
        | some senderConn => deliver_events msg.From senderConn msgBytes w1
        | none => [])

/-- Events of the range loop of the two broadcast functions (see `broadcast`):
a failed write is followed by `delete(clients, username)`. -/
def broadcast_events (data : Payload) : List (String × Conn) → World → List LockEvent
  | [], _ => []
  | (username, conn) :: rest, w =>
    match WriteMessage conn data w with
    | (some _, w1) =>
      let w2 := Close conn w1
      .mapDelete username ::
        broadcast_events data rest { w2 with clients := mapDelete w2.clients username }
    | (none, w1) => broadcast_events data rest w1

/-- Events of `SendDeleteMessageNotification`: the read lock is taken on entry
and released, by the deferred call, on return. -/
def SendDeleteMessageNotification_events (messageID : Int) (w : World) : List LockEvent :=
  [.RLock]
    ++ broadcast_events (.deleteMessage { Action := "delete_message", MessageID := messageID })
        w.clients w
    ++ [.RUnlock]

/-- Events of `SendEditMessageNotification`. -/
def SendEditMessageNotification_events (messageID : Int) (newContent : String) (w : World) :
    List LockEvent :=
  [.RLock]
    ++ broadcast_events (.editMessage "edit_message" messageID newContent) w.clients w
    ++ [.RUnlock]

/-- The keys of the deletions in a sequence of events, in order. -/
def deletedKeys (events : List LockEvent) : List String :=
  events.filterMap (fun ev =>
    match ev with
    | .mapDelete key => some key
    | _ => none)

/-! ## Concrete data used in evaluations -/

/-- A database holding the single user `alice` and nothing else. -/
def exampleDB : DB :=
  { users := [{ id := 1, username := "alice", email := "a@example.org", password := "h",
                salt := "s", role := "user" }]
    refresh_tokens := []
    messages := []
    refresh_tokens_seq := 0
    messages_seq := 0 }

/-- The refresh token issued to `alice` five nanoseconds into second 0, signed
with key `k`. -/
def exampleRefreshToken : TokenString :=
  .jws .HS256 (generatedClaims "alice" 2592000 "refresh") "k"

/-- The database after `Login` stored `exampleRefreshToken` at that instant. -/
def exampleLoggedInDB : DB := (SetRefreshTokenDB "alice" exampleRefreshToken 5 exampleDB).2

/-- Clock readings of a rotation that happens within the second in which
`exampleRefreshToken` was issued. -/
def sameSecondClock : RefreshClock :=
  { atValidate := 6, atClaims := 7, atAccess := 8, atRefresh := 9, atUpdate := 10 }

/-- Clock readings of a rotation two seconds after the issue. -/
def laterClock : RefreshClock :=
  { atValidate := 2000000006, atClaims := 2000000007, atAccess := 2000000008,
    atRefresh := 2000000009, atUpdate := 2000000010 }

/-- A message from `alice` to `bob`. -/
def exampleMessage : MessageRow :=
  { id := 1, from_user := "alice", to_user := "bob", content := "hi", created_at := 5 }

/-- A state with two stored messages and three registered connections, the
peer of `bob`'s connection being gone. -/
def exampleWorld : World :=
  { db := { exampleDB with
      messages := [exampleMessage,
        { id := 2, from_user := "bob", to_user := "alice", content := "yo", created_at := 6 }]
      messages_seq := 2 }
    clients := [("alice", ⟨1⟩), ("bob", ⟨2⟩), ("carol", ⟨3⟩)]
    writes := []
    closed := []
    broken := [⟨2⟩] }

/-- The frame `{"action":"send_message","to":"dave","content":"hi"}`; `dave`
has no connection in `exampleWorld`. -/
def exampleFrame : Frame :=
  .object [("action", .string "send_message"), ("to", .string "dave"), ("content", .string "hi")]

/-- The same frame with forged values for `from`, `id` and `created_at`. -/
def forgedFrame : Frame :=
  .object [("from", .string "carol"), ("action", .string "send_message"),
    ("ID", .number 99 true), ("to", .string "dave"), ("content", .string "hi"),
    ("created_at", .string "1999-01-01T00:00:00Z")]

/-- A stand-in for the parser of RFC 3339 timestamps: it accepts one text. -/
def exampleParseTime (text : String) : Option Nat :=
  if text = "1999-01-01T00:00:00Z" then some 915148800000000000 else none

/-- The database of `exampleWorld` after the message of `exampleFrame`, sent
by `alice` at instant 7, was inserted with id 3. -/
def exampleDBAfterSend : DB :=
  { exampleWorld.db with
    messages := exampleWorld.db.messages ++
      [{ id := 3, from_user := "alice", to_user := "dave", content := "hi", created_at := 7 }]
    messages_seq := 3 }

/-- The frames the claim on bad frames speaks of, for the connection of
`username` in state `w`: a frame that is not JSON (or not a JSON object), has
no string `action`, names an unknown action, is a `send_message` that does not
decode, has a `message_id` that is not a number, has a `new_content` that is not
a non-empty string, or asks for a delete or an edit of a message for which the
author lookup does not yield `username` (unknown id, or another author). -/
inductive BadFrame (parseTime : String → Option Nat) (username : String) (w : World) :
    Frame → Prop where
  | notJSON (frame : Frame) (e : String) :
      unmarshalEvent frame = .error e → BadFrame parseTime username w frame
  | noAction (frame : Frame) (event : List (String × JValue)) :
      unmarshalEvent frame = .ok event →
      (∀ action, event.lookup "action" ≠ some (.string action)) →
      BadFrame parseTime username w frame
  | unknownAction (frame : Frame) (event : List (String × JValue)) (action : String) :
      unmarshalEvent frame = .ok event →
      event.lookup "action" = some (.string action) →
      action ≠ "send_message" → action ≠ "delete_message" → action ≠ "edit_message" →
      BadFrame parseTime username w frame
  | undecodable (frame : Frame) (event : List (String × JValue)) (e : String) :
      unmarshalEvent frame = .ok event →
      event.lookup "action" = some (.string "send_message") →
      unmarshalMessage parseTime frame = .error e →
      BadFrame parseTime username w frame
  | badMessageID (frame : Frame) (event : List (String × JValue)) (action : String) :
      unmarshalEvent frame = .ok event →
      event.lookup "action" = some (.string action) →
      action = "delete_message" ∨ action = "edit_message" →
      (∀ n b, event.lookup "message_id" ≠ some (.number n b)) →
      BadFrame parseTime username w frame
  | badNewContent (frame : Frame) (event : List (String × JValue)) (n : Int) (b : Bool) :
      unmarshalEvent frame = .ok event →
      event.lookup "action" = some (.string "edit_message") →
      event.lookup "message_id" = some (.number n b) →
      (∀ s, s ≠ "" → event.lookup "new_content" ≠ some (.string s)) →
      BadFrame parseTime username w frame
  | deleteRefused (frame : Frame) (event : List (String × JValue)) (n : Int) (b : Bool) :
      unmarshalEvent frame = .ok event →
      event.lookup "action" = some (.string "delete_message") →
      event.lookup "message_id" = some (.number n b) →
      w.db.queryMessageAuthor n ≠ .ok username →
      BadFrame parseTime username w frame
  | editRefused (frame : Frame) (event : List (String × JValue)) (n : Int) (b : Bool)
      (newContent : String) :
      unmarshalEvent frame = .ok event →
      event.lookup "action" = some (.string "edit_message") →
      event.lookup "message_id" = some (.number n b) →
      event.lookup "new_content" = some (.string newContent) →
      w.db.queryMessageAuthor n ≠ .ok username →
      BadFrame parseTime username w frame

/-- The frame `{"action":"edit_message","message_id":1,"new_content":"x"}`. -/
def editFrame : Frame :=
  .object [("action", .string "edit_message"), ("message_id", .number 1 true),
    ("new_content", .string "x")]

/-- A small instance of the library functions that has the four facts stated
above, for evaluating the program on concrete inputs. It stands in for the real
libraries and is not cryptography: the derived key is cut from the password, the
salt and zero padding, an encoding writes each byte as the character with that
code, and sealing appends a tag of sixteen zero bytes. -/
def exampleCrypto : Crypto :=
  { IDKey := fun password salt _ _ _ keyLen =>
      (password ++ salt ++ List.replicate keyLen 0).take keyLen
    urlEncodeToString := fun data => String.mk (data.map (fun b => Char.ofNat b.val))
    stdEncodeToString := fun data => String.mk (data.map (fun b => Char.ofNat b.val))
    stdDecodeString := fun text => .ok (text.data.map (fun c => Fin.ofNat c.toNat))
    gcmSeal := fun _ _ plaintext => plaintext ++ List.replicate 16 0
    gcmOpen := fun _ _ ciphertext =>
      if ciphertext.length < 16 then .error "cipher: message authentication failed"
      else .ok (ciphertext.take (ciphertext.length - 16)) }

/-- The refresh token issued to `alice` at instant 2000000009, signed with key
`k`. -/
def laterRefreshToken : TokenString :=
  .jws .HS256 (generatedClaims "alice" 2592002 "refresh") "k"

/-- The refresh token issued to `alice` at instant 4000000000, signed with key
`k`. -/
def newestRefreshToken : TokenString :=
  .jws .HS256 (generatedClaims "alice" 2592004 "refresh") "k"

/-- The database after `alice` logged in twice, at instants 5 and 2000000009, so
that two refresh tokens of hers are stored. -/
def exampleTwoTokensDB : DB :=
  (SetRefreshTokenDB "alice" laterRefreshToken 2000000009 exampleLoggedInDB).2

/-- The states of the database that can be reached, with the signing key fixed,
from a database without refresh tokens by runs of the `Login` and `RefreshToken`
handlers (the only callers of `SetRefreshTokenDB` and `UpdateRefreshToken`) and
by anything that leaves the refresh-token table alone. Within one run of a
handler the clock does not go backwards between the making of the refresh token
and the statement that stores it. -/
inductive Reachable (lib : Crypto) (secretKey : String) : DB → Prop where
  | init (db : DB) : db.refresh_tokens = [] → Reachable lib secretKey db
  | login (db : DB) (body : LoginBody) (clock : LoginClock) :
      Reachable lib secretKey db → clock.atRefresh ≤ clock.atStore →
      Reachable lib secretKey (Login lib body secretKey clock db).2
  | refresh (db : DB) (authorizationHeader : AuthorizationHeader) (clock : RefreshClock) :
      Reachable lib secretKey db → clock.atRefresh ≤ clock.atUpdate →
      Reachable lib secretKey (RefreshToken authorizationHeader secretKey clock db).2
  | elsewhere (db db1 : DB) :
      Reachable lib secretKey db → db1.refresh_tokens = db.refresh_tokens →
      Reachable lib secretKey db1

/-- The invariant of the refresh-token table: every row holds a token made by
`GenerateRefreshToken` at some instant `t`, and the row's `expires_at` is not
before `t` plus thirty days, hence not before the token's own `exp`. -/
def RowsOutliveTokens (secretKey : String) (db : DB) : Prop :=
  ∀ row ∈ db.refresh_tokens, ∃ (username : String) (t : Nat),
    row.token = .jws .HS256 (generatedClaims username (unix (t + 30 * 24 * hour)) "refresh")
      secretKey ∧
    t + 30 * 24 * hour ≤ row.expires_at

/-- A database in which `alice` has an account with password `pw` and salt `s`,
hashed with the stand-in libraries, and no refresh token is stored. -/
def exampleAccountDB : DB :=
  { users := [{ id := 1, username := "alice", email := "a@example.org",
                password := (HashPassword exampleCrypto (bytesOf "pw") (bytesOf "s")).1,
                salt := "s", role := "user" }]
    refresh_tokens := []
    messages := []
    refresh_tokens_seq := 0
    messages_seq := 0 }

/-- The database after `alice` logged in with her password, the refresh token
being made at instant 5 and stored at instant 6. -/
def exampleAfterLoginDB : DB :=
  (Login exampleCrypto (.credentials "alice" "pw") "k" ⟨3, 5, 6⟩ exampleAccountDB).2

/-- Go `sendPrivateMessage` run among other goroutines: the two lookups are made
in state `w` under the read lock; before the recipient's block runs the others
have turned the state into `afterLookup w`, and between the two blocks they act
again (`betweenBlocks`). With both functions the identity this is
`sendPrivateMessage`. -/
def sendPrivateMessage_amid (afterLookup betweenBlocks : World → World) (msg : Message)
    (w : World) : World :=
  let msgBytes := sendMessagePayload msg.ID msg.From msg.To msg.Content msg.CreatedAt
  let recipient := mapGet w.clients msg.To
  let sender := mapGet w.clients msg.From
  let w1 :=
    match recipient with
    | some recipientConn => deliver msg.To recipientConn msgBytes (afterLookup w)
    | none => afterLookup w
  match sender with
  | some senderConn => deliver msg.From senderConn msgBytes (betweenBlocks w1)
  | none => betweenBlocks w1

/-- A state in which `bob` has re-registered with connection 7 while a write on
his former connection 2, whose peer is gone, is under way. -/
def reconnectedWorld : World :=
  { exampleWorld with clients := [("alice", ⟨1⟩), ("bob", ⟨7⟩), ("carol", ⟨3⟩)] }

/-! # Theorems -/

/-! ## Lemmas about the registry -/

theorem mapGet_mapDelete_self (m : Clients) (k : String) : mapGet (mapDelete m k) k = none := by
  induction m with
  | nil => rfl
  | cons e rest ih =>
    by_cases h : e.1 = k
    · simpa [mapDelete, List.filter_cons, h] using ih
    · have hk : (k == e.1) = false := by
        simpa using fun h2 : k = e.1 => h h2.symm
      simpa [mapDelete, mapGet, List.filter_cons, h, List.lookup, hk] using ih

theorem mapGet_mapDelete_of_ne (m : Clients) (k u : String) (h : u ≠ k) :
    mapGet (mapDelete m k) u = mapGet m u := by
  induction m with
  | nil => rfl
  | cons e rest ih =>
    obtain ⟨key, c⟩ := e
    by_cases hk : key = k
    · subst hk
      have hu : (u == key) = false := by simpa using h
      simpa [mapDelete, mapGet, List.filter_cons, List.lookup, hu] using ih
    · by_cases hu : u = key
      · subst hu
        simp [mapDelete, mapGet, List.filter_cons, hk, List.lookup]
      · have hu2 : (u == key) = false := by simpa using hu
        simpa [mapDelete, mapGet, List.filter_cons, hk, List.lookup, hu2] using ih

theorem mapGet_mapSet_self (m : Clients) (k : String) (v : Conn) :
    mapGet (mapSet m k v) k = some v := by
  simp [mapSet, mapGet, List.lookup]

theorem mapGet_mapSet_of_ne (m : Clients) (k u : String) (v : Conn) (h : u ≠ k) :
    mapGet (mapSet m k v) u = mapGet m u := by
  have hu : (u == k) = false := by simpa using h
  have := mapGet_mapDelete_of_ne m k u h
  simpa [mapSet, mapGet, List.lookup, hu] using this

/-! ## C1: the disconnect path of `WebSocketHandler` -/

/-- C1 (evaluation of the code): after `c1` and then `c2` are registered for
`user`, the registry maps `user` to `c2`; a read error in the receive loop of
the older connection `c1` then deletes that entry although it belongs to `c2`
(the deletion at the `break` of `WebSocketHandler` does not compare
connections); a read error in the loop of `c2` clears the entry as well. -/
theorem stale_read_error_evicts_newer_connection
    (parseTime : String → Option Nat) (user : String) (c1 c2 : Conn) (now : Nat)
    (err : String) (w : World) :
    let w2 : World := { w with clients := mapSet (mapSet w.clients user c1) user c2 }
    mapGet w2.clients user = some c2 ∧
    mapGet (WebSocketHandler_iteration parseTime user c1 now (.error err) w2).2.clients user
      = none ∧
    mapGet (WebSocketHandler_iteration parseTime user c2 now (.error err) w2).2.clients user
      = none := by
  refine ⟨mapGet_mapSet_self _ _ _, ?_, ?_⟩ <;>
    simp [WebSocketHandler_iteration, Close, mapGet_mapDelete_self]

/-! ## Lemmas about generated tokens -/

theorem jwtParse_generated_ok (username type key : String) (exp : Int) (now : Nat)
    (h0 : exp ≠ 0) (hlt : (now : Int) < exp * (second : Int)) :
    jwtParse (.jws .HS256 (generatedClaims username exp type) key) key now
      = .ok { Method := .HS256, Claims := generatedClaims username exp type, Valid := true } := by
  simp [jwtParse, keyFunc, SigningMethod.isHMAC, validateClaims, parseNumericDate,
    generatedClaims, List.lookup, h0, hlt]

theorem jwtParse_generated_expired (username type key : String) (exp : Int) (now : Nat)
    (h0 : exp ≠ 0) (hge : exp * (second : Int) ≤ (now : Int)) :
    jwtParse (.jws .HS256 (generatedClaims username exp type) key) key now
      = .error "token is expired" := by
  have : ¬ ((now : Int) < exp * (second : Int)) := not_lt.mpr hge
  simp [jwtParse, keyFunc, SigningMethod.isHMAC, validateClaims, parseNumericDate,
    generatedClaims, List.lookup, h0, this]

theorem hour_eq : hour = 3600000000000 := by decide

theorem second_eq : second = 1000000000 := rfl

theorem unix_add_pos (t : Nat) (k : Nat) (hk : 0 < k) : unix (t + k * hour) ≠ 0 := by
  have h : 3600 ≤ (t + k * hour) / second := by
    rw [hour_eq, second_eq]
    omega
  unfold unix
  omega

theorem unix_add_gt (t : Nat) (k : Nat) (hk : 0 < k) :
    (t : Int) < unix (t + k * hour) * (second : Int) := by
  unfold unix
  rw [hour_eq, second_eq]
  push_cast
  omega

/-! ## C2: what `WebSocketHandler` checks at connect -/

/-- C2 (evaluation of the code): a refresh token issued for a non-empty user
name, presented in the query of `/ws` before it expires, is refused by
`ValidateAccessToken` but accepted by `WebSocketHandler`, which registers the
connection: the handler calls `GetClaims` only, and `GetClaims` does not look at
the `type` claim. -/
theorem refresh_token_opens_websocket (username key : String) (t now : Nat) (conn : Conn)
    (w : World) (hname : username ≠ "")
    (hlive : (now : Int) < unix (t + 30 * 24 * hour) * (second : Int)) :
    ∃ token, GenerateRefreshToken username t key = .ok token ∧
      (∃ e, ValidateAccessToken token key now = (false, some e)) ∧
      WebSocketHandler_connect token key now (.ok conn) w
        = (.ok (username, conn), { w with clients := mapSet w.clients username conn }) := by
  have h0 : unix (t + 30 * 24 * hour) ≠ 0 := by
    have := unix_add_pos t (30 * 24) (by decide)
    simpa [Nat.mul_assoc] using this
  have hp := jwtParse_generated_ok username "refresh" key _ now h0 hlive
  refine ⟨_, rfl, ?_, ?_⟩
  · simp only [generatedClaims] at hp
    simp [ValidateAccessToken, hp, List.lookup]
  · simp only [generatedClaims] at hp
    simp [WebSocketHandler_connect, ExtractUsername, GetClaims, hp, List.lookup, hname]

/-- Witness for `refresh_token_opens_websocket`: the refresh token issued to
`alice` at instant 0 with key `k`, presented at once. -/
theorem refresh_token_opens_websocket_witness :
    ∃ token, GenerateRefreshToken "alice" 0 "k" = .ok token ∧
      (∃ e, ValidateAccessToken token "k" 0 = (false, some e)) ∧
      WebSocketHandler_connect token "k" 0 (.ok ⟨1⟩) ⟨⟨[], [], [], 0, 0⟩, [], [], [], []⟩
        = (.ok ("alice", ⟨1⟩),
           { (⟨⟨[], [], [], 0, 0⟩, [], [], [], []⟩ : World) with
             clients := mapSet [] "alice" ⟨1⟩ }) :=
  refresh_token_opens_websocket "alice" "k" 0 0 ⟨1⟩ ⟨⟨[], [], [], 0, 0⟩, [], [], [], []⟩
    (by decide) (by decide)

/-! ## Lemmas about stored refresh tokens -/

theorem queryRefreshToken_of_mem (db : DB) (tok : TokenString)
    (h : ∃ r ∈ db.refresh_tokens, r.token = tok) : db.queryRefreshToken tok = .ok tok := by
  obtain ⟨r, hr, hrt⟩ := h
  unfold DB.queryRefreshToken
  cases hf : db.refresh_tokens.find? (fun r => decide (r.token = tok)) with
  | none =>
    have := List.find?_eq_none.mp hf r hr
    simp [hrt] at this
  | some r0 =>
    have := List.find?_some hf
    simp at this
    simp [this]

theorem queryRefreshToken_of_not_mem (db : DB) (tok : TokenString)
    (h : ∀ r ∈ db.refresh_tokens, r.token ≠ tok) : db.queryRefreshToken tok = .error errNoRows := by
  unfold DB.queryRefreshToken
  cases hf : db.refresh_tokens.find? (fun r => decide (r.token = tok)) with
  | none => rfl
  | some r0 =>
    have h1 := List.find?_some hf
    have h2 := List.mem_of_find?_eq_some hf
    simp at h1
    exact absurd h1 (h r0 h2)

theorem ValidateRefreshToken_not_stored (tok : TokenString) (key : String) (now : Nat) (db : DB)
    (h : ∀ r ∈ db.refresh_tokens, r.token ≠ tok) :
    ∃ e, ValidateRefreshToken tok key now db = (false, some e) := by
  unfold ValidateRefreshToken
  rw [queryRefreshToken_of_not_mem db tok h]
  split
  · exact ⟨_, rfl⟩
  · split
    · exact ⟨_, rfl⟩
    · split
      · split
        · exact ⟨_, rfl⟩
        · exact ⟨_, rfl⟩
      · exact ⟨_, rfl⟩

theorem ValidateRefreshToken_true_stored (tok : TokenString) (key : String) (now : Nat) (db : DB)
    (h : (ValidateRefreshToken tok key now db).1 = true) :
    ∃ r ∈ db.refresh_tokens, r.token = tok := by
  by_contra hcon
  push_neg at hcon
  obtain ⟨e, he⟩ := ValidateRefreshToken_not_stored tok key now db hcon
  rw [he] at h
  simp at h

/-! ## C3: rotation of refresh tokens -/

theorem generateRefreshToken_eq (username key : String) (now : Nat) :
    GenerateRefreshToken username now key
      = .ok (.jws .HS256 (generatedClaims username (unix (now + 30 * 24 * hour)) "refresh") key) :=
  rfl

theorem generateAccessToken_eq (username key : String) (now : Nat) :
    GenerateAccessToken username now key
      = .ok (.jws .HS256 (generatedClaims username (unix (now + hour * 1)) "access") key) :=
  rfl

theorem unix_ne_of_second_ne (a b k : Nat) (h : a / second ≠ b / second) :
    unix (a + k * hour) ≠ unix (b + k * hour) := by
  unfold unix
  rw [hour_eq, second_eq] at *
  omega

theorem updateRefreshToken_tokens (old new : TokenString) (now : Nat) (db db1 : DB)
    (h : UpdateRefreshToken old new now db = (none, db1)) :
    db1 = { db with refresh_tokens := db.refresh_tokens.map (fun r =>
      if r.token = old then { r with token := new, expires_at := now + 30 * 24 * hour }
      else r) } := by
  unfold UpdateRefreshToken DB.execUpdateRefreshToken at h
  split at h
  · simp at h
  · rename_i db2 heq
    dsimp only at heq
    split at heq
    · simp at heq
    · simp only [Except.ok.injEq] at heq
      simp only [Prod.mk.injEq, true_and] at h
      rw [← h, ← heq]

/-- C3 (counterexample): `alice` logs in at instant 5 ns and rotates her refresh
token within the same clock second. The handler answers 200, the token it
returns is the very token presented, and that old token still validates
afterwards. -/
theorem same_second_rotation_keeps_old_token :
    (RefreshToken (.bearer exampleRefreshToken) "k" sameSecondClock exampleLoggedInDB).1.status
        = 200 ∧
    GenerateRefreshToken "alice" 5 "k" = .ok exampleRefreshToken ∧
    (RefreshToken (.bearer exampleRefreshToken) "k" sameSecondClock exampleLoggedInDB).1.body.lookup
        "refreshToken" = some (.token exampleRefreshToken) ∧
    ValidateRefreshToken exampleRefreshToken "k" 11
        (RefreshToken (.bearer exampleRefreshToken) "k" sameSecondClock exampleLoggedInDB).2
      = (true, none) := by
  decide

theorem jwtParse_jws_ok (m : SigningMethod) (c : MapClaims) (k key : String) (now : Nat)
    (token : Token) (h : jwtParse (.jws m c k) key now = .ok token) :
    token = { Method := m, Claims := c, Valid := true } ∧ k = key := by
  unfold jwtParse at h
  simp only at h
  split at h
  · simp at h
  · rename_i key1 hkey
    have hk : key1 = key := by
      unfold keyFunc at hkey
      split at hkey
      · simpa using hkey.symm
      · simp at hkey
    split at h
    · simp at h
    · rename_i hmac
      split at h
      · simp at h
      · simp only [Except.ok.injEq] at h
        refine ⟨h.symm, ?_⟩
        rw [← hk]
        simpa using hmac

theorem GetClaims_jws_ok (m : SigningMethod) (c c1 : MapClaims) (k key : String) (now : Nat)
    (h : GetClaims (.jws m c k) key now = .ok c1) : c1 = c := by
  unfold GetClaims at h
  split at h
  · simp at h
  · rename_i token heq
    obtain ⟨htok, -⟩ := jwtParse_jws_ok _ _ _ _ _ _ heq
    subst htok
    simpa using h.symm

theorem ValidateRefreshToken_generated (username key : String) (t now : Nat) (db : DB)
    (hlive : (now : Int) < unix (t + 30 * 24 * hour) * (second : Int))
    (hstored : ∃ r ∈ db.refresh_tokens,
      r.token = .jws .HS256 (generatedClaims username (unix (t + 30 * 24 * hour)) "refresh") key) :
    ValidateRefreshToken
      (.jws .HS256 (generatedClaims username (unix (t + 30 * 24 * hour)) "refresh") key)
      key now db = (true, none) := by
  have h0 : unix (t + 30 * 24 * hour) ≠ 0 := by
    have := unix_add_pos t (30 * 24) (by decide)
    simpa [Nat.mul_assoc] using this
  have hp := jwtParse_generated_ok username "refresh" key _ now h0 hlive
  unfold ValidateRefreshToken
  rw [hp, queryRefreshToken_of_mem db _ hstored]
  simp [generatedClaims, List.lookup]

/-- C3 (amended): when the `RefreshToken` handler answers 200 to a refresh token
`T` issued for `username` at instant `t0`, the token `T2` in its answer is the
one `GenerateRefreshToken` makes at the handler's clock reading, `T2` validates
against the updated table at every instant before its expiry, and, provided the
rotation does not fall into the clock second in which `T` was issued, `T` is
refused against the updated table at every instant. -/
theorem rotation_replaces_token_in_later_second (username key : String) (t0 : Nat)
    (clock : RefreshClock) (db db1 : DB) (T : TokenString) (resp : Response)
    (hT : GenerateRefreshToken username t0 key = .ok T)
    (hrun : RefreshToken (.bearer T) key clock db = (resp, db1))
    (hok : resp.status = 200) :
    ∃ T2, GenerateRefreshToken username clock.atRefresh key = .ok T2 ∧
      resp.body.lookup "refreshToken" = some (.token T2) ∧
      (∀ now : Nat, (now : Int) < unix (clock.atRefresh + 30 * 24 * hour) * (second : Int) →
        ValidateRefreshToken T2 key now db1 = (true, none)) ∧
      (t0 / second ≠ clock.atRefresh / second →
        ∀ now : Nat, ∃ e, ValidateRefreshToken T key now db1 = (false, some e)) := by
  rw [generateRefreshToken_eq] at hT
  simp only [Except.ok.injEq] at hT
  subst hT
  refine ⟨_, generateRefreshToken_eq _ _ _, ?_⟩
  unfold RefreshToken at hrun
  simp only [ExtractToken] at hrun
  split at hrun
  · simp only [Prod.mk.injEq] at hrun
    obtain ⟨h1, -⟩ := hrun
    subst h1
    simp at hok
  · simp only [Prod.mk.injEq] at hrun
    obtain ⟨h1, -⟩ := hrun
    subst h1
    simp at hok
  · rename_i hval
    have hstored := ValidateRefreshToken_true_stored _ _ _ _ (by rw [hval])
    split at hrun
    · simp only [Prod.mk.injEq] at hrun
      obtain ⟨h1, -⟩ := hrun
      subst h1
      simp at hok
    · rename_i claims hclaims
      have hc := GetClaims_jws_ok _ _ _ _ _ _ hclaims
      subst hc
      have hl : (generatedClaims username (unix (t0 + 30 * 24 * hour)) "refresh").lookup
          "username" = some (.str username) := by
        simp [generatedClaims, List.lookup]
      rw [hl] at hrun
      simp only [generateAccessToken_eq, generateRefreshToken_eq] at hrun
      split at hrun
      · simp only [Prod.mk.injEq] at hrun
        obtain ⟨h1, -⟩ := hrun
        subst h1
        simp at hok
      · rename_i db2 hupd
        simp only [Prod.mk.injEq] at hrun
        obtain ⟨h1, h2⟩ := hrun
        subst h1 h2
        have hdb := updateRefreshToken_tokens _ _ _ _ _ hupd
        obtain ⟨r, hr, hrt⟩ := hstored
        refine ⟨by simp [List.lookup], ?_, ?_⟩
        · intro now hlive
          apply ValidateRefreshToken_generated _ _ _ _ _ hlive
          rw [hdb]
          exact ⟨_, List.mem_map_of_mem _ hr, by simp [hrt]⟩
        · intro hsec now
          apply ValidateRefreshToken_not_stored
          intro r1 hr1
          rw [hdb] at hr1
          simp only [List.mem_map] at hr1
          obtain ⟨r0, -, rfl⟩ := hr1
          have hne := unix_ne_of_second_ne _ _ (30 * 24) hsec
          rw [Nat.mul_assoc] at hne
          split
          · simp [generatedClaims]
            intro h
            exact hne h.symm
          · assumption

/-- Witness for `rotation_replaces_token_in_later_second`: `alice` rotates, two
seconds after logging in, the token she was issued; the handler answers 200. -/
theorem rotation_replaces_token_in_later_second_witness :
    GenerateRefreshToken "alice" 5 "k" = .ok exampleRefreshToken ∧
    (RefreshToken (.bearer exampleRefreshToken) "k" laterClock exampleLoggedInDB).1.status = 200 ∧
    (5 / second ≠ laterClock.atRefresh / second) ∧
    ∃ T2, GenerateRefreshToken "alice" laterClock.atRefresh "k" = .ok T2 ∧
      (RefreshToken (.bearer exampleRefreshToken) "k" laterClock exampleLoggedInDB).1.body.lookup
        "refreshToken" = some (.token T2) ∧
      (∀ now : Nat, (now : Int) < unix (laterClock.atRefresh + 30 * 24 * hour) * (second : Int) →
        ValidateRefreshToken T2 "k" now
          (RefreshToken (.bearer exampleRefreshToken) "k" laterClock exampleLoggedInDB).2
          = (true, none)) ∧
      (5 / second ≠ laterClock.atRefresh / second →
        ∀ now : Nat, ∃ e, ValidateRefreshToken exampleRefreshToken "k" now
          (RefreshToken (.bearer exampleRefreshToken) "k" laterClock exampleLoggedInDB).2
          = (false, some e)) :=
  ⟨by decide, by decide, by decide,
    rotation_replaces_token_in_later_second "alice" "k" 5 laterClock exampleLoggedInDB
      (RefreshToken (.bearer exampleRefreshToken) "k" laterClock exampleLoggedInDB).2
      exampleRefreshToken
      (RefreshToken (.bearer exampleRefreshToken) "k" laterClock exampleLoggedInDB).1
      (by decide) rfl (by decide)⟩

/-! ## Lemmas about the message table and the broadcast loop -/

theorem eq_of_mem_of_id_eq (l : List MessageRow) (M m : MessageRow)
    (hpk : (l.map (·.id)).Nodup) (hM : M ∈ l) (hm : m ∈ l) (hid : m.id = M.id) : m = M :=
  List.inj_on_of_nodup_map hpk hm hM hid

theorem queryMessageAuthor_of_mem (db : DB) (M : MessageRow)
    (hpk : (db.messages.map (·.id)).Nodup) (hM : M ∈ db.messages) :
    db.queryMessageAuthor M.id = .ok M.from_user := by
  unfold DB.queryMessageAuthor
  cases hf : db.messages.find? (fun m => decide (m.id = M.id)) with
  | none =>
    have := List.find?_eq_none.mp hf M hM
    simp at this
  | some m0 =>
    have h1 := List.find?_some hf
    have h2 := List.mem_of_find?_eq_some hf
    simp only [decide_eq_true_eq] at h1
    rw [eq_of_mem_of_id_eq _ _ _ hpk hM h2 h1]

theorem WriteMessage_db (conn : Conn) (data : Payload) (w : World) :
    (WriteMessage conn data w).2.db = w.db := by
  unfold WriteMessage
  split <;> rfl

theorem broadcast_db (data : Payload) (entries : List (String × Conn)) (w : World) :
    (broadcast data entries w).db = w.db := by
  induction entries generalizing w with
  | nil => rfl
  | cons e rest ih =>
    obtain ⟨username, conn⟩ := e
    unfold broadcast
    have hw := WriteMessage_db conn data w
    split
    · rename_i w1 heq
      rw [heq] at hw
      rw [ih]
      simpa [Close] using hw
    · rename_i w1 heq
      rw [heq] at hw
      rw [ih]
      exact hw

theorem WriteMessage_attempts (conn : Conn) (data : Payload) (w : World) :
    attempts (WriteMessage conn data w).2 = attempts w ++ [(conn, data)] := by
  unfold WriteMessage attempts
  split <;> simp

theorem broadcast_attempts (data : Payload) (entries : List (String × Conn)) (w : World) :
    attempts (broadcast data entries w) = attempts w ++ entries.map (fun e => (e.2, data)) := by
  induction entries generalizing w with
  | nil => simp [broadcast]
  | cons e rest ih =>
    obtain ⟨username, conn⟩ := e
    unfold broadcast
    have hw := WriteMessage_attempts conn data w
    split
    · rename_i w1 heq
      rw [heq] at hw
      rw [ih]
      have : attempts { Close conn w1 with clients := mapDelete (Close conn w1).clients username }
          = attempts w1 := rfl
      rw [this, hw]
      simp
    · rename_i w1 heq
      rw [heq] at hw
      rw [ih, hw]
      simp

/-! ## C4 and C5: authorship decides edit and delete -/

/-- C4: for a stored message `M` (the table having `id` as its primary key) and
a requester other than its sender, `EditMessage` and `DeleteMessage` both return
an error and leave the whole state as it was: the message table is unchanged,
and no write is made on any connection. -/
theorem non_author_cannot_edit_or_delete (w : World) (M : MessageRow)
    (other newContent : String)
    (hpk : (w.db.messages.map (·.id)).Nodup) (hM : M ∈ w.db.messages)
    (hne : other ≠ M.from_user) :
    (∃ e, EditMessage M.id other newContent w = (some e, w)) ∧
    (∃ e, DeleteMessage M.id other w = (some e, w)) := by
  have hq := queryMessageAuthor_of_mem w.db M hpk hM
  have hne2 : M.from_user ≠ other := fun h => hne h.symm
  constructor
  · unfold EditMessage
    rw [hq]
    simp [hne2]
  · unfold DeleteMessage
    rw [hq]
    simp [hne2]

/-- Witness for `non_author_cannot_edit_or_delete`: `bob` tries to edit and to
delete the message `alice` sent him. -/
theorem non_author_cannot_edit_or_delete_witness :
    (∃ e, EditMessage exampleMessage.id "bob" "x" exampleWorld = (some e, exampleWorld)) ∧
    (∃ e, DeleteMessage exampleMessage.id "bob" exampleWorld = (some e, exampleWorld)) :=
  non_author_cannot_edit_or_delete exampleWorld exampleMessage "bob" "x"
    (by decide) (by decide) (by decide)

/-- C5: for a stored message `M` (the table having `id` as its primary key),
`EditMessage` called by its sender returns no error and leaves the database as
it was except that the row with `M`'s id has the new content, its id, sender,
recipient and creation time and every other row being unchanged; `DeleteMessage`
called by its sender returns no error and leaves the database as it was except
that exactly the row with `M`'s id is gone. -/
theorem author_edit_and_delete (w : World) (M : MessageRow) (newContent : String)
    (hpk : (w.db.messages.map (·.id)).Nodup) (hM : M ∈ w.db.messages) :
    (EditMessage M.id M.from_user newContent w).1 = none ∧
    (EditMessage M.id M.from_user newContent w).2.db
      = { w.db with messages := w.db.messages.map (fun m =>
            if m = M then { M with content := newContent } else m) } ∧
    (DeleteMessage M.id M.from_user w).1 = none ∧
    (DeleteMessage M.id M.from_user w).2.db
      = { w.db with messages := w.db.messages.filter (fun m => m ≠ M) } ∧
    M ∉ (DeleteMessage M.id M.from_user w).2.db.messages ∧
    (∀ m, m ≠ M → (m ∈ (DeleteMessage M.id M.from_user w).2.db.messages ↔ m ∈ w.db.messages)) := by
  have hq := queryMessageAuthor_of_mem w.db M hpk hM
  have hpos : (w.db.messages.filter
      (fun m => decide (m.id = M.id ∧ m.from_user = M.from_user))).length ≠ 0 := by
    have : M ∈ w.db.messages.filter
        (fun m => decide (m.id = M.id ∧ m.from_user = M.from_user)) := by
      simp [List.mem_filter, hM]
    exact Nat.pos_iff_ne_zero.mp (List.length_pos_of_mem this)
  have hmap : w.db.messages.map (fun m =>
        if m.id = M.id ∧ m.from_user = M.from_user then { m with content := newContent } else m)
      = w.db.messages.map (fun m => if m = M then { M with content := newContent } else m) := by
    apply List.map_congr_left
    intro m hm
    by_cases h : m = M
    · subst h
      simp
    · have : ¬ (m.id = M.id ∧ m.from_user = M.from_user) :=
        fun h2 => h (eq_of_mem_of_id_eq _ _ _ hpk hM hm h2.1)
      simp [h, this]
  have hfilter : w.db.messages.filter (fun m => decide (m.id ≠ M.id))
      = w.db.messages.filter (fun m => decide (m ≠ M)) := by
    apply List.filter_congr
    intro m hm
    by_cases h : m = M
    · subst h
      simp
    · have : m.id ≠ M.id := fun h2 => h (eq_of_mem_of_id_eq _ _ _ hpk hM hm h2)
      simp [h, this]
  have hdel : DeleteMessage M.id M.from_user w
      = (none, SendDeleteMessageNotification M.id
          { w with db := { w.db with messages := w.db.messages.filter (fun m => m ≠ M) } }) := by
    unfold DeleteMessage
    rw [hq]
    simp only [DB.execDeleteMessage, hfilter]
    simp
  have hedit : EditMessage M.id M.from_user newContent w
      = (none, SendEditMessageNotification M.id newContent
          { w with db := { w.db with messages := w.db.messages.map (fun m =>
            if m = M then { M with content := newContent } else m) } }) := by
    unfold EditMessage
    rw [hq]
    simp only [DB.execUpdateMessage, hmap]
    simp only [ne_eq, not_true_eq_false, if_false, hpos]
  rw [hdel, hedit]
  refine ⟨rfl, ?_, rfl, ?_, ?_, ?_⟩
  · simp [SendEditMessageNotification, broadcast_db]
  · simp [SendDeleteMessageNotification, broadcast_db]
  · simp [SendDeleteMessageNotification, broadcast_db, List.mem_filter]
  · intro m hm
    simp [SendDeleteMessageNotification, broadcast_db, List.mem_filter, hm]

/-- Witness for `author_edit_and_delete`: `alice` edits and deletes the message
she sent. -/
theorem author_edit_and_delete_witness :
    (EditMessage exampleMessage.id exampleMessage.from_user "new" exampleWorld).1 = none ∧
    (EditMessage exampleMessage.id exampleMessage.from_user "new" exampleWorld).2.db
      = { exampleWorld.db with messages := exampleWorld.db.messages.map (fun m =>
            if m = exampleMessage then { exampleMessage with content := "new" } else m) } ∧
    (DeleteMessage exampleMessage.id exampleMessage.from_user exampleWorld).1 = none ∧
    (DeleteMessage exampleMessage.id exampleMessage.from_user exampleWorld).2.db
      = { exampleWorld.db with
            messages := exampleWorld.db.messages.filter (fun m => m ≠ exampleMessage) } ∧
    exampleMessage ∉ (DeleteMessage exampleMessage.id exampleMessage.from_user exampleWorld).2.db.messages ∧
    (∀ m, m ≠ exampleMessage →
      (m ∈ (DeleteMessage exampleMessage.id exampleMessage.from_user exampleWorld).2.db.messages
        ↔ m ∈ exampleWorld.db.messages)) :=
  author_edit_and_delete exampleWorld exampleMessage "new" (by decide) (by decide)

/-! ## C6 and C7: access tokens, and the two tags -/

theorem validateAccessToken_generated (username type key : String) (exp : Int) (now : Nat)
    (h0 : exp ≠ 0) (hlt : (now : Int) < exp * (second : Int)) :
    ValidateAccessToken (.jws .HS256 (generatedClaims username exp type) key) key now
      = if type = "access" then (true, none)
        else (false, some "неверный тип токена: ожидается access токен") := by
  unfold ValidateAccessToken
  rw [jwtParse_generated_ok username type key exp now h0 hlt]
  by_cases h : type = "access" <;> simp [generatedClaims, List.lookup, h]

theorem validateRefreshToken_generated_tag (username type key : String) (exp : Int) (now : Nat)
    (db : DB) (h : type ≠ "refresh") :
    ∃ e, ValidateRefreshToken (.jws .HS256 (generatedClaims username exp type) key) key now db
      = (false, some e) := by
  unfold ValidateRefreshToken
  split
  · exact ⟨_, rfl⟩
  · rename_i token heq
    obtain ⟨htok, -⟩ := jwtParse_jws_ok _ _ _ _ _ _ heq
    subst htok
    simp [generatedClaims, List.lookup, h]

/-- C6: the token made by `GenerateAccessToken` for any user, at any instant `t`
and with any signing key, carries `exp = Unix(t + 1h)`; `ValidateAccessToken`
(with the same key) returns `(true, nil)` for it at instant `t`, and returns
`(false, error)` at every instant at or after that expiry. -/
theorem access_token_valid_until_expiry (username key : String) (t : Nat) :
    ∃ token, GenerateAccessToken username t key = .ok token ∧
      token = .jws .HS256
        [("username", .str username), ("exp", .num (unix (t + hour))), ("type", .str "access")]
        key ∧
      ValidateAccessToken token key t = (true, none) ∧
      ∀ now : Nat, unix (t + hour) * (second : Int) ≤ (now : Int) →
        ∃ e, ValidateAccessToken token key now = (false, some e) := by
  have h0 : unix (t + hour * 1) ≠ 0 := by
    have := unix_add_pos t 1 (by decide)
    simpa [Nat.mul_comm] using this
  have hlt : (t : Int) < unix (t + hour * 1) * (second : Int) := by
    have := unix_add_gt t 1 (by decide)
    simpa [Nat.mul_comm] using this
  refine ⟨_, generateAccessToken_eq username key t, ?_, ?_, ?_⟩
  · simp [generatedClaims]
  · rw [validateAccessToken_generated _ _ _ _ _ h0 hlt]
    simp
  · intro now hnow
    have hge : unix (t + hour * 1) * (second : Int) ≤ (now : Int) := by
      simpa using hnow
    unfold ValidateAccessToken
    rw [jwtParse_generated_expired _ _ _ _ _ h0 hge]
    exact ⟨_, rfl⟩

theorem validateAccessToken_generated_tag (username type key : String) (exp : Int) (now : Nat)
    (h : type ≠ "access") :
    ∃ e, ValidateAccessToken (.jws .HS256 (generatedClaims username exp type) key) key now
      = (false, some e) := by
  unfold ValidateAccessToken
  split
  · exact ⟨_, rfl⟩
  · rename_i token heq
    obtain ⟨htok, -⟩ := jwtParse_jws_ok _ _ _ _ _ _ heq
    subst htok
    simp [generatedClaims, List.lookup, h]

theorem validateAccessToken_true_tag (tok : TokenString) (key : String) (now : Nat)
    (h : (ValidateAccessToken tok key now).1 = true) :
    ∃ m c k, tok = .jws m c k ∧ c.lookup "type" = some (.str "access") := by
  cases tok with
  | malformed raw => simp [ValidateAccessToken, jwtParse] at h
  | jws m c k =>
    refine ⟨m, c, k, rfl, ?_⟩
    unfold ValidateAccessToken at h
    split at h
    · simp at h
    · rename_i token heq
      obtain ⟨htok, -⟩ := jwtParse_jws_ok _ _ _ _ _ _ heq
      subst htok
      simp only [Bool.not_true, Bool.false_eq_true, if_false] at h
      split at h
      · rename_i tokenType hty
        split at h
        · simp at h
        · rename_i heq2
          rw [hty]
          simp only [ne_eq, Decidable.not_not] at heq2
          rw [heq2]
      · simp at h

theorem validateRefreshToken_true_tag (tok : TokenString) (key : String) (now : Nat) (db : DB)
    (h : (ValidateRefreshToken tok key now db).1 = true) :
    ∃ m c k, tok = .jws m c k ∧ c.lookup "type" = some (.str "refresh") := by
  cases tok with
  | malformed raw => simp [ValidateRefreshToken, jwtParse] at h
  | jws m c k =>
    refine ⟨m, c, k, rfl, ?_⟩
    unfold ValidateRefreshToken at h
    split at h
    · simp at h
    · rename_i token heq
      obtain ⟨htok, -⟩ := jwtParse_jws_ok _ _ _ _ _ _ heq
      subst htok
      simp only [Bool.not_true, Bool.false_eq_true, if_false] at h
      split at h
      · rename_i tokenType hty
        split at h
        · simp at h
        · rename_i heq2
          rw [hty]
          simp only [ne_eq, Decidable.not_not] at heq2
          rw [heq2]
      · simp at h

/-- C7: for every user, issue instant, signing key, instant of the check and
contents of the database, `ValidateAccessToken` rejects the token made by
`GenerateRefreshToken` and `ValidateRefreshToken` rejects the token made by
`GenerateAccessToken`; and whenever `ValidateAccessToken` (respectively
`ValidateRefreshToken`) returns `true` for a token string, that string is a
token whose `type` claim is the string `access` (respectively `refresh`). -/
theorem token_tags_never_confused (username key : String) (t now : Nat) (db : DB) :
    (∃ token, GenerateRefreshToken username t key = .ok token ∧
      ∃ e, ValidateAccessToken token key now = (false, some e)) ∧
    (∃ token, GenerateAccessToken username t key = .ok token ∧
      ∃ e, ValidateRefreshToken token key now db = (false, some e)) ∧
    (∀ token : TokenString, (ValidateAccessToken token key now).1 = true →
      ∃ m c k, token = .jws m c k ∧ c.lookup "type" = some (.str "access")) ∧
    (∀ token : TokenString, (ValidateRefreshToken token key now db).1 = true →
      ∃ m c k, token = .jws m c k ∧ c.lookup "type" = some (.str "refresh")) :=
  ⟨⟨_, generateRefreshToken_eq username key t,
      validateAccessToken_generated_tag _ _ _ _ _ (by decide)⟩,
   ⟨_, generateAccessToken_eq username key t,
      validateRefreshToken_generated_tag _ _ _ _ _ _ (by decide)⟩,
   fun token h => validateAccessToken_true_tag token key now h,
   fun token h => validateRefreshToken_true_tag token key now db h⟩

/-! ## C8: delivery of a stored message -/

theorem deliver_attempts (user : String) (conn : Conn) (data : Payload) (w : World) :
    attempts (deliver user conn data w) = attempts w ++ [(conn, data)] := by
  have hw := WriteMessage_attempts conn data w
  unfold deliver
  split
  · rename_i w1 heq
    rw [heq] at hw
    simp only at hw
    dsimp only
    split <;> simpa [Close, attempts] using hw
  · rename_i w1 heq
    rw [heq] at hw
    exact hw

theorem deliver_clients_of_writable (user : String) (conn : Conn) (data : Payload) (w : World)
    (h : writable conn w) : (deliver user conn data w).clients = w.clients := by
  unfold deliver WriteMessage
  have : ¬ (conn ∈ w.closed ∨ conn ∈ w.broken) := fun h2 => h2.elim h.1 h.2
  simp [this]

theorem WriteMessage_clients (conn : Conn) (data : Payload) (w : World) :
    (WriteMessage conn data w).2.clients = w.clients := by
  unfold WriteMessage
  split <;> rfl

theorem deliver_clients_other (user other : String) (conn : Conn) (data : Payload) (w : World)
    (h : other ≠ user) :
    mapGet (deliver user conn data w).clients other = mapGet w.clients other := by
  have hw := WriteMessage_clients conn data w
  unfold deliver
  split
  · rename_i w1 heq
    rw [heq] at hw
    simp only at hw
    dsimp only
    split
    · simp only [Close]
      rw [mapGet_mapDelete_of_ne _ _ _ h, hw]
    · simp only [Close]
      rw [hw]
  · rename_i w1 heq
    rw [heq] at hw
    simp only at hw
    rw [hw]

theorem SaveMessageToDB_ok (db db1 : DB) (msg msg2 : Message) (N : Int)
    (h : SaveMessageToDB db msg = ((N, none), msg2, db1)) :
    msg2 = { msg with ID := N } ∧
    db1.messages = db.messages ++
      [{ id := N, from_user := msg.From, to_user := msg.To, content := msg.Content,
         created_at := msg.CreatedAt }] := by
  simp only [SaveMessageToDB, DB.execInsertMessage, Prod.mk.injEq, and_true] at h
  obtain ⟨hN, hmsg, hdb⟩ := h
  subst hN
  exact ⟨hmsg.symm, by rw [← hdb]⟩

theorem sendPrivateMessage_attempts (msg : Message) (w : World) :
    attempts (sendPrivateMessage msg w)
      = attempts w
        ++ (mapGet w.clients msg.To).toList.map
            (fun c => (c, sendMessagePayload msg.ID msg.From msg.To msg.Content msg.CreatedAt))
        ++ (mapGet w.clients msg.From).toList.map
            (fun c => (c, sendMessagePayload msg.ID msg.From msg.To msg.Content msg.CreatedAt)) := by
  unfold sendPrivateMessage
  cases hR : mapGet w.clients msg.To <;> cases hS : mapGet w.clients msg.From <;>
    simp [deliver_attempts, sendMessagePayload]

theorem sendPrivateMessage_absent_recipient (msg : Message) (w : World)
    (h : mapGet w.clients msg.To = none) :
    sendPrivateMessage msg w
      = match mapGet w.clients msg.From with
        | some senderConn =>
          deliver msg.From senderConn
            (sendMessagePayload msg.ID msg.From msg.To msg.Content msg.CreatedAt) w
        | none => w := by
  unfold sendPrivateMessage
  simp only [h]
  rfl

theorem send_message_iteration (parseTime : String → Option Nat) (S : String) (conn : Conn)
    (now : Nat) (frame : Frame) (w : World) (event : List (String × JValue)) (m : Message)
    (N : Int) (msg2 : Message) (db1 : DB)
    (hev : unmarshalEvent frame = .ok event)
    (hact : event.lookup "action" = some (.string "send_message"))
    (hmsg : unmarshalMessage parseTime frame = .ok m)
    (hsave : SaveMessageToDB w.db { m with From := S, CreatedAt := now } = ((N, none), msg2, db1)) :
    WebSocketHandler_iteration parseTime S conn now (.message frame) w
      = (true, sendPrivateMessage
          { ID := N, From := S, To := m.To, Content := m.Content, CreatedAt := now }
          { w with db := db1 }) := by
  obtain ⟨h2, -⟩ := SaveMessageToDB_ok _ _ _ _ _ hsave
  subst h2
  unfold WebSocketHandler_iteration
  simp only [hev, hact, hmsg, hsave, if_true]

/-- C8 (amended): let a frame read on the connection of user `S` be a
`send_message` frame that decodes to recipient `m.To` and content `m.Content`,
and let the insert succeed with new id `N`. Then the iteration of the receive
loop calls
`WriteMessage` exactly on the connection registered for the recipient, if there
is one, and then on the connection registered for `S`, if there is one, each
time with the `send_message` notification carrying `N`, `S`, the recipient and
the content. If the recipient has no registered connection, the whole effect on
the transports and the registry is that of the echo to `S` alone: nothing is
written for the recipient, the recipient branch leaves the registry as it was,
every entry other than that of `S` is untouched, and the registry is unchanged
altogether unless the echo write to `S` fails. -/
theorem send_message_delivery (parseTime : String → Option Nat) (S : String) (conn : Conn)
    (now : Nat) (frame : Frame) (w : World) (event : List (String × JValue)) (m : Message)
    (N : Int) (msg2 : Message) (db1 : DB)
    (hev : unmarshalEvent frame = .ok event)
    (hact : event.lookup "action" = some (.string "send_message"))
    (hmsg : unmarshalMessage parseTime frame = .ok m)
    (hsave : SaveMessageToDB w.db { m with From := S, CreatedAt := now } = ((N, none), msg2, db1)) :
    attempts (WebSocketHandler_iteration parseTime S conn now (.message frame) w).2
      = attempts w
        ++ (mapGet w.clients m.To).toList.map
            (fun c => (c, sendMessagePayload N S m.To m.Content now))
        ++ (mapGet w.clients S).toList.map
            (fun c => (c, sendMessagePayload N S m.To m.Content now)) ∧
    (mapGet w.clients m.To = none →
      (WebSocketHandler_iteration parseTime S conn now (.message frame) w).2
        = (match mapGet w.clients S with
           | some senderConn =>
             deliver S senderConn (sendMessagePayload N S m.To m.Content now) { w with db := db1 }
           | none => { w with db := db1 }) ∧
      (∀ u, u ≠ S →
        mapGet (WebSocketHandler_iteration parseTime S conn now (.message frame) w).2.clients u
          = mapGet w.clients u) ∧
      ((∀ c, mapGet w.clients S = some c → writable c w) →
        (WebSocketHandler_iteration parseTime S conn now (.message frame) w).2.clients
          = w.clients)) := by
  rw [send_message_iteration parseTime S conn now frame w event m N msg2 db1 hev hact hmsg hsave]
  refine ⟨?_, ?_⟩
  · rw [sendPrivateMessage_attempts]
    rfl
  · intro hR
    have habs := sendPrivateMessage_absent_recipient
      { ID := N, From := S, To := m.To, Content := m.Content, CreatedAt := now }
      { w with db := db1 } hR
    simp only at habs
    rw [habs]
    refine ⟨rfl, ?_, ?_⟩
    · intro u hu
      cases hS : mapGet w.clients S with
      | none => rfl
      | some c =>
        simp only
        rw [deliver_clients_other _ _ _ _ _ hu]
    · intro hwr
      cases hS : mapGet w.clients S with
      | none => rfl
      | some c =>
        simp only
        rw [deliver_clients_of_writable]
        exact hwr c hS

/-- Witness for `send_message_delivery`: `alice` sends `hi` to `dave`, who is not
connected; the message is stored with id 3 and echoed to `alice` only. -/
theorem send_message_delivery_witness :
    unmarshalEvent exampleFrame
      = .ok [("content", .string "hi"), ("to", .string "dave"),
             ("action", .string "send_message")] ∧
    unmarshalMessage exampleParseTime exampleFrame
      = .ok { ID := 0, From := "", To := "dave", Content := "hi", CreatedAt := 0 } ∧
    SaveMessageToDB exampleWorld.db
        { ID := 0, From := "alice", To := "dave", Content := "hi", CreatedAt := 7 }
      = ((3, none), { ID := 3, From := "alice", To := "dave", Content := "hi", CreatedAt := 7 },
         exampleDBAfterSend) ∧
    attempts (WebSocketHandler_iteration exampleParseTime "alice" ⟨1⟩ 7 (.message exampleFrame)
        exampleWorld).2
      = [(⟨1⟩, sendMessagePayload 3 "alice" "dave" "hi" 7)] ∧
    (WebSocketHandler_iteration exampleParseTime "alice" ⟨1⟩ 7 (.message exampleFrame)
        exampleWorld).2.clients = exampleWorld.clients := by
  have h := send_message_delivery exampleParseTime "alice" ⟨1⟩ 7 exampleFrame exampleWorld
    [("content", .string "hi"), ("to", .string "dave"), ("action", .string "send_message")]
    { ID := 0, From := "", To := "dave", Content := "hi", CreatedAt := 0 } 3
    { ID := 3, From := "alice", To := "dave", Content := "hi", CreatedAt := 7 }
    exampleDBAfterSend (by decide) (by decide) (by decide) (by decide)
  refine ⟨by decide, by decide, by decide, ?_, ?_⟩
  · rw [h.1]
    decide
  · exact (h.2 (by decide)).2.2 (by
      intro c hc
      have hc1 : c = ⟨1⟩ := by
        have : mapGet exampleWorld.clients "alice" = some ⟨1⟩ := by decide
        rw [this] at hc
        exact (Option.some.inj hc).symm
      subst hc1
      exact ⟨by decide, by decide⟩)

/-- C8 (counterexample): `bob`, whose peer is gone, sends `hi` to `dave`, who
has no registered connection. The echo write on `bob`'s connection fails and
the entry of `bob` is deleted, so the registry is not left unchanged. -/
theorem absent_recipient_failed_echo_changes_registry :
    mapGet exampleWorld.clients "dave" = none ∧
    (WebSocketHandler_iteration exampleParseTime "bob" ⟨2⟩ 7 (.message exampleFrame)
        exampleWorld).2.writes
      = [⟨⟨2⟩, sendMessagePayload 3 "bob" "dave" "hi" 7, false⟩] ∧
    (WebSocketHandler_iteration exampleParseTime "bob" ⟨2⟩ 7 (.message exampleFrame)
        exampleWorld).2.clients
      = [("alice", ⟨1⟩), ("carol", ⟨3⟩)] ∧
    (WebSocketHandler_iteration exampleParseTime "bob" ⟨2⟩ 7 (.message exampleFrame)
        exampleWorld).2.clients ≠ exampleWorld.clients := by
  decide

/-! ## C9: the sender of a stored message -/

theorem SaveMessageToDB_eq (db : DB) (msg : Message) :
    SaveMessageToDB db msg
      = ((nextRowid db.messages_seq (db.messages.map (·.id)), none),
         { msg with ID := nextRowid db.messages_seq (db.messages.map (·.id)) },
         { db with
            messages := db.messages ++
              [{ id := nextRowid db.messages_seq (db.messages.map (·.id)),
                 from_user := msg.From, to_user := msg.To, content := msg.Content,
                 created_at := msg.CreatedAt }]
            messages_seq := nextRowid db.messages_seq (db.messages.map (·.id)) }) :=
  rfl

theorem deliver_db (user : String) (conn : Conn) (data : Payload) (w : World) :
    (deliver user conn data w).db = w.db := by
  have hw := WriteMessage_db conn data w
  unfold deliver
  split
  · rename_i w1 heq
    rw [heq] at hw
    simp only at hw
    dsimp only
    split <;> simpa [Close] using hw
  · rename_i w1 heq
    rw [heq] at hw
    exact hw

theorem sendPrivateMessage_db (msg : Message) (w : World) :
    (sendPrivateMessage msg w).db = w.db := by
  unfold sendPrivateMessage
  cases hR : mapGet w.clients msg.To <;> cases hS : mapGet w.clients msg.From <;>
    simp [deliver_db]

theorem decodeMember_To (parseTime : String → Option Nat) (st : Message × Option String)
    (member : String × JValue) :
    (decodeMember parseTime st member).1.To
      = if foldName member.1 = "to" then
          (match member.2 with
           | .string v => v
           | _ => st.1.To)
        else st.1.To := by
  obtain ⟨key, val⟩ := member
  unfold decodeMember
  simp only
  generalize foldName key = k
  by_cases h1 : k = "id"
  · subst h1
    rcases val with _ | b | ⟨n, _ | _⟩ | v | _ <;> simp
    split <;> simp
  · by_cases h2 : k = "from"
    · subst h2
      rcases val with _ | b | ⟨n, il⟩ | v | _ <;> simp
    · by_cases h3 : k = "to"
      · subst h3
        rcases val with _ | b | ⟨n, il⟩ | v | _ <;> simp
      · by_cases h4 : k = "content"
        · subst h4
          rcases val with _ | b | ⟨n, il⟩ | v | _ <;> simp
        · by_cases h5 : k = "created_at"
          · subst h5
            rcases val with _ | b | ⟨n, il⟩ | v | _ <;> simp
            split <;> simp
          · simp [h1, h2, h3, h4, h5]

theorem decodeMember_Content (parseTime : String → Option Nat) (st : Message × Option String)
    (member : String × JValue) :
    (decodeMember parseTime st member).1.Content
      = if foldName member.1 = "content" then
          (match member.2 with
           | .string v => v
           | _ => st.1.Content)
        else st.1.Content := by
  obtain ⟨key, val⟩ := member
  unfold decodeMember
  simp only
  generalize foldName key = k
  by_cases h1 : k = "id"
  · subst h1
    rcases val with _ | b | ⟨n, _ | _⟩ | v | _ <;> simp
    split <;> simp
  · by_cases h2 : k = "from"
    · subst h2
      rcases val with _ | b | ⟨n, il⟩ | v | _ <;> simp
    · by_cases h3 : k = "to"
      · subst h3
        rcases val with _ | b | ⟨n, il⟩ | v | _ <;> simp
      · by_cases h4 : k = "content"
        · subst h4
          rcases val with _ | b | ⟨n, il⟩ | v | _ <;> simp
        · by_cases h5 : k = "created_at"
          · subst h5
            rcases val with _ | b | ⟨n, il⟩ | v | _ <;> simp
            split <;> simp
          · simp [h1, h2, h3, h4, h5]

theorem spoofable_not_to (key : String) (h : spoofable key = true) :
    foldName key ≠ "to" ∧ foldName key ≠ "content" := by
  unfold spoofable at h
  simp only [decide_eq_true_eq] at h
  rcases h with h | h | h <;> rw [h] <;> decide

theorem foldl_decodeMember_To (parseTime : String → Option Nat)
    (members : List (String × JValue)) (st st1 : Message × Option String)
    (h : st.1.To = st1.1.To) :
    (members.foldl (decodeMember parseTime) st).1.To
      = ((members.filter (fun m => !spoofable m.1)).foldl (decodeMember parseTime) st1).1.To := by
  induction members generalizing st st1 with
  | nil => simpa using h
  | cons member rest ih =>
    by_cases hs : spoofable member.1 = true
    · simp only [List.foldl_cons, List.filter_cons, hs, Bool.not_true, Bool.false_eq_true,
        if_false]
      apply ih
      rw [decodeMember_To, if_neg (spoofable_not_to _ hs).1, h]
    · simp only [Bool.not_eq_true] at hs
      simp only [List.foldl_cons, List.filter_cons, hs, Bool.not_false, if_true]
      apply ih
      rw [decodeMember_To, decodeMember_To, h]

theorem foldl_decodeMember_Content (parseTime : String → Option Nat)
    (members : List (String × JValue)) (st st1 : Message × Option String)
    (h : st.1.Content = st1.1.Content) :
    (members.foldl (decodeMember parseTime) st).1.Content
      = ((members.filter (fun m => !spoofable m.1)).foldl
          (decodeMember parseTime) st1).1.Content := by
  induction members generalizing st st1 with
  | nil => simpa using h
  | cons member rest ih =>
    by_cases hs : spoofable member.1 = true
    · simp only [List.foldl_cons, List.filter_cons, hs, Bool.not_true, Bool.false_eq_true,
        if_false]
      apply ih
      rw [decodeMember_Content, if_neg (spoofable_not_to _ hs).2, h]
    · simp only [Bool.not_eq_true] at hs
      simp only [List.foldl_cons, List.filter_cons, hs, Bool.not_false, if_true]
      apply ih
      rw [decodeMember_Content, decodeMember_Content, h]

theorem unmarshalMessage_object_ok (parseTime : String → Option Nat)
    (members : List (String × JValue)) (m : Message)
    (h : unmarshalMessage parseTime (.object members) = .ok m) :
    m = (members.foldl (decodeMember parseTime) (zeroMessage, none)).1 := by
  unfold unmarshalMessage at h
  simp only at h
  split at h
  · simp at h
  · rename_i msg heq
    simp only [Except.ok.injEq] at h
    rw [heq, h]

theorem lookup_filter_not_spoofable (key : String) (members : List (String × JValue))
    (h : spoofable key = false) :
    (members.filter (fun m => !spoofable m.1)).lookup key = members.lookup key := by
  induction members with
  | nil => rfl
  | cons member rest ih =>
    obtain ⟨k, v⟩ := member
    by_cases hs : spoofable k = true
    · have hne : (key == k) = false := by
        simp only [beq_eq_false_iff_ne, ne_eq]
        intro heq
        rw [heq, hs] at h
        exact absurd h (by decide)
      simp [List.filter_cons, hs, List.lookup, hne, ih]
    · simp only [Bool.not_eq_true] at hs
      simp only [List.filter_cons, hs, Bool.not_false, if_true, List.lookup, ih]

theorem send_message_iteration_eq (parseTime : String → Option Nat) (S : String) (conn : Conn)
    (now : Nat) (frame : Frame) (w : World) (event : List (String × JValue)) (m : Message)
    (hev : unmarshalEvent frame = .ok event)
    (hact : event.lookup "action" = some (.string "send_message"))
    (hmsg : unmarshalMessage parseTime frame = .ok m) :
    WebSocketHandler_iteration parseTime S conn now (.message frame) w
      = (true, sendPrivateMessage
          { ID := nextRowid w.db.messages_seq (w.db.messages.map (·.id)), From := S, To := m.To,
            Content := m.Content, CreatedAt := now }
          { w with db := { w.db with
              messages := w.db.messages ++
                [{ id := nextRowid w.db.messages_seq (w.db.messages.map (·.id)),
                   from_user := S, to_user := m.To, content := m.Content, created_at := now }]
              messages_seq := nextRowid w.db.messages_seq (w.db.messages.map (·.id)) } }) :=
  send_message_iteration parseTime S conn now frame w event m _ _ _ hev hact hmsg
    (SaveMessageToDB_eq _ _)

theorem decoded_To_Content_of_withoutSpoofable (parseTime : String → Option Nat)
    (ms1 ms2 : List (String × JValue)) (m1 m2 : Message)
    (hstrip : ms1.filter (fun m => !spoofable m.1) = ms2.filter (fun m => !spoofable m.1))
    (h1 : unmarshalMessage parseTime (.object ms1) = .ok m1)
    (h2 : unmarshalMessage parseTime (.object ms2) = .ok m2) :
    m1.To = m2.To ∧ m1.Content = m2.Content := by
  rw [unmarshalMessage_object_ok _ _ _ h1, unmarshalMessage_object_ok _ _ _ h2]
  constructor
  · rw [foldl_decodeMember_To parseTime ms1 _ (zeroMessage, none) rfl,
      foldl_decodeMember_To parseTime ms2 _ (zeroMessage, none) rfl, hstrip]
  · rw [foldl_decodeMember_Content parseTime ms1 _ (zeroMessage, none) rfl,
      foldl_decodeMember_Content parseTime ms2 _ (zeroMessage, none) rfl, hstrip]

theorem action_of_withoutSpoofable (ms1 ms2 : List (String × JValue))
    (hstrip : ms1.filter (fun m => !spoofable m.1) = ms2.filter (fun m => !spoofable m.1)) :
    ms2.reverse.lookup "action" = ms1.reverse.lookup "action" := by
  have hk : spoofable "action" = false := by decide
  rw [← lookup_filter_not_spoofable "action" ms2.reverse hk,
    ← lookup_filter_not_spoofable "action" ms1.reverse hk, List.filter_reverse,
    List.filter_reverse, hstrip]

/-- C9: let a frame read on the connection of user `S` be a `send_message`
frame. If it does not decode into a `Message` it is dropped and nothing changes.
If it decodes, whatever it supplies for `from`, `id` and `created_at`, exactly
one row is appended to `messages`, with `from_user = S`, the id assigned by the
store and the handler's clock reading, and every write made carries the
notification with `from = S` and that id. Moreover a second frame that differs
from the first only in `from`, `id` and `created_at` is either dropped, when it
does not decode, or leads to the same result in every respect as the first. -/
theorem stored_sender_is_connection_user (parseTime : String → Option Nat) (S : String)
    (conn : Conn) (now : Nat) (w : World) (frame : Frame) (event : List (String × JValue))
    (hev : unmarshalEvent frame = .ok event)
    (hact : event.lookup "action" = some (.string "send_message")) :
    (∀ e, unmarshalMessage parseTime frame = .error e →
      WebSocketHandler_iteration parseTime S conn now (.message frame) w = (true, w)) ∧
    (∀ m, unmarshalMessage parseTime frame = .ok m →
      (WebSocketHandler_iteration parseTime S conn now (.message frame) w).2.db.messages
        = w.db.messages ++
          [{ id := nextRowid w.db.messages_seq (w.db.messages.map (·.id)), from_user := S,
             to_user := m.To, content := m.Content, created_at := now }] ∧
      attempts (WebSocketHandler_iteration parseTime S conn now (.message frame) w).2
        = attempts w
          ++ (mapGet w.clients m.To).toList.map (fun c =>
              (c, sendMessagePayload (nextRowid w.db.messages_seq (w.db.messages.map (·.id)))
                    S m.To m.Content now))
          ++ (mapGet w.clients S).toList.map (fun c =>
              (c, sendMessagePayload (nextRowid w.db.messages_seq (w.db.messages.map (·.id)))
                    S m.To m.Content now))) ∧
    (∀ frame2, frame.withoutSpoofable = frame2.withoutSpoofable →
      (∀ e, unmarshalMessage parseTime frame2 = .error e →
        WebSocketHandler_iteration parseTime S conn now (.message frame2) w = (true, w)) ∧
      (∀ m m2, unmarshalMessage parseTime frame = .ok m →
        unmarshalMessage parseTime frame2 = .ok m2 →
        WebSocketHandler_iteration parseTime S conn now (.message frame2) w
          = WebSocketHandler_iteration parseTime S conn now (.message frame) w)) := by
  refine ⟨?_, ?_, ?_⟩
  · intro e he
    unfold WebSocketHandler_iteration
    simp only [hev, hact, he, if_true]
  · intro m hm
    rw [send_message_iteration_eq parseTime S conn now frame w event m hev hact hm]
    refine ⟨?_, ?_⟩
    · rw [sendPrivateMessage_db]
    · rw [sendPrivateMessage_attempts]
      rfl
  · intro frame2 hstrip
    cases frame with
    | invalid => simp [unmarshalEvent] at hev
    | nonObject => simp [unmarshalEvent] at hev
    | null =>
      simp only [unmarshalEvent, Except.ok.injEq] at hev
      subst hev
      simp [List.lookup] at hact
    | object ms1 =>
      cases frame2 with
      | invalid => simp [Frame.withoutSpoofable] at hstrip
      | nonObject => simp [Frame.withoutSpoofable] at hstrip
      | null => simp [Frame.withoutSpoofable] at hstrip
      | object ms2 =>
        simp only [Frame.withoutSpoofable, Frame.object.injEq] at hstrip
        simp only [unmarshalEvent, Except.ok.injEq] at hev
        subst hev
        have hact2 : ms2.reverse.lookup "action" = some (.string "send_message") := by
          rw [action_of_withoutSpoofable ms1 ms2 hstrip, hact]
        refine ⟨?_, ?_⟩
        · intro e he
          unfold WebSocketHandler_iteration
          simp only [unmarshalEvent, hact2, he, if_true]
        · intro m m2 hm hm2
          obtain ⟨hTo, hContent⟩ :=
            decoded_To_Content_of_withoutSpoofable parseTime ms1 ms2 m m2 hstrip hm hm2
          rw [send_message_iteration_eq parseTime S conn now (.object ms1) w _ m rfl hact hm,
            send_message_iteration_eq parseTime S conn now (.object ms2) w _ m2 rfl hact2 hm2,
            hTo, hContent]

/-- Witness for `stored_sender_is_connection_user`: `alice` sends a frame that
claims to come from `carol`, with id 99 and a creation time in 1999. The stored
row is from `alice`, has id 3 and the instant of receipt, and the outcome is
that of the frame without the three forged members. -/
theorem stored_sender_is_connection_user_witness :
    unmarshalEvent forgedFrame
      = .ok [("created_at", .string "1999-01-01T00:00:00Z"), ("content", .string "hi"),
             ("to", .string "dave"), ("ID", .number 99 true),
             ("action", .string "send_message"), ("from", .string "carol")] ∧
    unmarshalMessage exampleParseTime forgedFrame
      = .ok { ID := 99, From := "carol", To := "dave", Content := "hi",
              CreatedAt := 915148800000000000 } ∧
    (WebSocketHandler_iteration exampleParseTime "alice" ⟨1⟩ 7 (.message forgedFrame)
        exampleWorld).2.db.messages
      = exampleWorld.db.messages ++
          [{ id := 3, from_user := "alice", to_user := "dave", content := "hi",
             created_at := 7 }] ∧
    WebSocketHandler_iteration exampleParseTime "alice" ⟨1⟩ 7 (.message exampleFrame) exampleWorld
      = WebSocketHandler_iteration exampleParseTime "alice" ⟨1⟩ 7 (.message forgedFrame)
          exampleWorld := by
  have h := stored_sender_is_connection_user exampleParseTime "alice" ⟨1⟩ 7 exampleWorld
    forgedFrame
    [("created_at", .string "1999-01-01T00:00:00Z"), ("content", .string "hi"),
      ("to", .string "dave"), ("ID", .number 99 true),
      ("action", .string "send_message"), ("from", .string "carol")]
    (by decide) (by decide)
  have hm : unmarshalMessage exampleParseTime forgedFrame
      = .ok { ID := 99, From := "carol", To := "dave", Content := "hi",
              CreatedAt := 915148800000000000 } := by decide
  have hm2 : unmarshalMessage exampleParseTime exampleFrame
      = .ok { ID := 0, From := "", To := "dave", Content := "hi", CreatedAt := 0 } := by decide
  refine ⟨by decide, hm, ?_, ?_⟩
  · rw [(h.2.1 _ hm).1]
    decide
  · exact (h.2.2 exampleFrame (by decide)).2 _ _ hm hm2


/-! ## C10: the broadcast after an edit or a delete -/

theorem EditMessage_ok (messageID : Int) (username newContent : String) (w : World)
    (h : (EditMessage messageID username newContent w).1 = none) :
    ∃ db1, (EditMessage messageID username newContent w).2
      = SendEditMessageNotification messageID newContent { w with db := db1 } := by
  unfold EditMessage at h ⊢
  split
  · rename_i heq
    rw [heq] at h
    simp at h
  · rename_i author heq
    rw [heq] at h
    simp only at h
    split
    · rename_i hne
      rw [if_pos hne] at h
      simp at h
    · rename_i hne
      rw [if_neg hne] at h
      split
      · rename_i heq2
        rw [heq2] at h
        simp at h
      · rename_i db1 rows heq2
        rw [heq2] at h
        simp only at h
        split
        · rename_i h0
          rw [if_pos h0] at h
          simp at h
        · exact ⟨db1, rfl⟩

theorem DeleteMessage_ok (messageID : Int) (username : String) (w : World)
    (h : (DeleteMessage messageID username w).1 = none) :
    ∃ db1, (DeleteMessage messageID username w).2
      = SendDeleteMessageNotification messageID { w with db := db1 } := by
  unfold DeleteMessage at h ⊢
  split
  · rename_i heq
    rw [heq] at h
    simp at h
  · rename_i author heq
    rw [heq] at h
    simp only at h
    split
    · rename_i hne
      rw [if_pos hne] at h
      simp at h
    · rename_i hne
      split
      · rename_i heq2
        simp [DB.execDeleteMessage] at heq2
      · rename_i db1 heq2
        exact ⟨db1, rfl⟩

/-- C10: when `EditMessage` (respectively `DeleteMessage`) returns no error in a
state `w`, the calls of `WriteMessage` it makes are exactly one per entry of the
registry of `w`, on that entry's connection and with the `edit_message`
notification carrying the id and the new content (respectively the
`delete_message` notification carrying the id), whatever the registry holds and
whichever of those writes fail. -/
theorem edit_delete_broadcast_to_all (w : World) (messageID : Int)
    (username newContent : String) :
    ((EditMessage messageID username newContent w).1 = none →
      attempts (EditMessage messageID username newContent w).2
        = attempts w ++ w.clients.map (fun e =>
            (e.2, Payload.editMessage "edit_message" messageID newContent))) ∧
    ((DeleteMessage messageID username w).1 = none →
      attempts (DeleteMessage messageID username w).2
        = attempts w ++ w.clients.map (fun e =>
            (e.2, Payload.deleteMessage
              { Action := "delete_message", MessageID := messageID }))) := by
  constructor
  · intro h
    obtain ⟨db1, hdb⟩ := EditMessage_ok _ _ _ _ h
    rw [hdb]
    unfold SendEditMessageNotification
    rw [broadcast_attempts]
    rfl
  · intro h
    obtain ⟨db1, hdb⟩ := DeleteMessage_ok _ _ _ h
    rw [hdb]
    unfold SendDeleteMessageNotification
    rw [broadcast_attempts]
    rfl

/-- Witness for `edit_delete_broadcast_to_all`: `alice` edits, and deletes, her
message while `alice`, `bob` and the unrelated `carol` are registered and the
write to `bob` fails; all three connections are written to. -/
theorem edit_delete_broadcast_to_all_witness :
    (EditMessage 1 "alice" "new" exampleWorld).1 = none ∧
    attempts (EditMessage 1 "alice" "new" exampleWorld).2
      = attempts exampleWorld ++ exampleWorld.clients.map (fun e =>
          (e.2, Payload.editMessage "edit_message" 1 "new")) ∧
    (EditMessage 1 "alice" "new" exampleWorld).2.writes
      = [⟨⟨1⟩, .editMessage "edit_message" 1 "new", true⟩,
         ⟨⟨2⟩, .editMessage "edit_message" 1 "new", false⟩,
         ⟨⟨3⟩, .editMessage "edit_message" 1 "new", true⟩] ∧
    (DeleteMessage 1 "alice" exampleWorld).1 = none ∧
    attempts (DeleteMessage 1 "alice" exampleWorld).2
      = attempts exampleWorld ++ exampleWorld.clients.map (fun e =>
          (e.2, Payload.deleteMessage { Action := "delete_message", MessageID := 1 })) :=
  ⟨by decide,
   (edit_delete_broadcast_to_all exampleWorld 1 "alice" "new").1 (by decide),
   by decide,
   by decide,
   (edit_delete_broadcast_to_all exampleWorld 1 "alice" "new").2 (by decide)⟩

/-! ## C11: a bad frame is skipped -/

theorem DeleteMessage_refused (messageID : Int) (username : String) (w : World)
    (h : w.db.queryMessageAuthor messageID ≠ .ok username) :
    ∃ e, DeleteMessage messageID username w = (some e, w) := by
  unfold DeleteMessage
  split
  · exact ⟨_, rfl⟩
  · rename_i author heq
    have hne : author ≠ username := by
      intro h2
      rw [h2] at heq
      exact h heq
    rw [if_pos hne]
    exact ⟨_, rfl⟩

theorem EditMessage_refused (messageID : Int) (username newContent : String) (w : World)
    (h : w.db.queryMessageAuthor messageID ≠ .ok username) :
    ∃ e, EditMessage messageID username newContent w = (some e, w) := by
  unfold EditMessage
  split
  · exact ⟨_, rfl⟩
  · rename_i author heq
    have hne : author ≠ username := by
      intro h2
      rw [h2] at heq
      exact h heq
    rw [if_pos hne]
    exact ⟨_, rfl⟩

theorem bad_frame_iteration (parseTime : String → Option Nat) (username : String) (conn : Conn)
    (now : Nat) (w : World) (frame : Frame) (h : BadFrame parseTime username w frame) :
    WebSocketHandler_iteration parseTime username conn now (.message frame) w = (true, w) := by
  unfold WebSocketHandler_iteration
  cases h with
  | notJSON e he => simp only [he]
  | noAction event hev hno =>
    simp only [hev]
  | unknownAction event action hev hact h1 h2 h3 =>
    simp only [hev, hact, if_neg h1, if_neg h2, if_neg h3]
  | undecodable event e hev hact hmsg =>
    simp only [hev, hact, hmsg, if_true]
  | badMessageID event action hev hact hor hno =>
    simp only [hev, hact]
    rcases hor with rfl | rfl
    · simp only [if_neg (by decide : ¬ "delete_message" = "send_message"), if_true]
    · simp only [if_neg (by decide : ¬ "edit_message" = "send_message"),
        if_neg (by decide : ¬ "edit_message" = "delete_message"), if_true]
  | badNewContent event n b hev hact hid hno =>
    simp only [hev, hact, hid, if_neg (by decide : ¬ "edit_message" = "send_message"),
      if_neg (by decide : ¬ "edit_message" = "delete_message"), if_true]
    split
    · rename_i s hs
      by_cases h0 : s = ""
      · rw [if_pos h0]
      · exact absurd hs (hno s h0)
    · rfl
  | deleteRefused event n b hev hact hid href =>
    obtain ⟨e, he⟩ := DeleteMessage_refused n username w href
    simp only [hev, hact, hid, if_neg (by decide : ¬ "delete_message" = "send_message"),
      if_true, he]
  | editRefused event n b newContent hev hact hid hnc href =>
    obtain ⟨e, he⟩ := EditMessage_refused n username newContent w href
    simp only [hev, hact, hid, hnc, if_neg (by decide : ¬ "edit_message" = "send_message"),
      if_neg (by decide : ¬ "edit_message" = "delete_message"), if_true, he]
    split <;> rfl

/-- C11: for a frame that was read without a transport error and that is not
valid JSON, has no string `action`, names an unknown action, has a `message_id`
or `new_content` of the wrong type, or asks for an edit or delete that the store
refuses, the iteration of the receive loop does not leave the loop and returns
the state it was given: the connection is not closed, the registry (with the
user's entry) and the message table are as before, and nothing is written. The
loop then goes on with the next result of `ReadMessage`. -/
theorem bad_frame_is_skipped (parseTime : String → Option Nat) (username : String) (conn : Conn)
    (now : Nat) (w : World) (frame : Frame) (rest : List (Nat × ReadResult))
    (h : BadFrame parseTime username w frame) :
    WebSocketHandler_iteration parseTime username conn now (.message frame) w = (true, w) ∧
    (WebSocketHandler_iteration parseTime username conn now (.message frame) w).2.closed
      = w.closed ∧
    mapGet (WebSocketHandler_iteration parseTime username conn now (.message frame) w).2.clients
      username = mapGet w.clients username ∧
    (WebSocketHandler_iteration parseTime username conn now (.message frame) w).2.db.messages
      = w.db.messages ∧
    WebSocketHandler_loop parseTime username conn ((now, .message frame) :: rest) w
      = WebSocketHandler_loop parseTime username conn rest w := by
  have hi := bad_frame_iteration parseTime username conn now w frame h
  refine ⟨hi, by rw [hi], by rw [hi], by rw [hi], ?_⟩
  rw [WebSocketHandler_loop, hi]

/-- Witness for `bad_frame_is_skipped`: `bob` asks to edit message 1, which
`alice` wrote; the frame is skipped and the next frame is read. -/
theorem bad_frame_is_skipped_witness :
    BadFrame exampleParseTime "bob" exampleWorld editFrame ∧
    WebSocketHandler_iteration exampleParseTime "bob" ⟨2⟩ 9 (.message editFrame) exampleWorld
      = (true, exampleWorld) ∧
    WebSocketHandler_loop exampleParseTime "bob" ⟨2⟩
        [(9, .message editFrame), (10, .message .invalid)] exampleWorld
      = WebSocketHandler_loop exampleParseTime "bob" ⟨2⟩ [(10, .message .invalid)] exampleWorld :=
  have hbad : BadFrame exampleParseTime "bob" exampleWorld editFrame :=
    .editRefused editFrame
      [("new_content", .string "x"), ("message_id", .number 1 true),
        ("action", .string "edit_message")] 1 true "x"
      (by decide) (by decide) (by decide) (by decide) (by decide)
  ⟨hbad,
   (bad_frame_is_skipped exampleParseTime "bob" ⟨2⟩ 9 exampleWorld editFrame
      [(10, .message .invalid)] hbad).1,
   (bad_frame_is_skipped exampleParseTime "bob" ⟨2⟩ 9 exampleWorld editFrame
      [(10, .message .invalid)] hbad).2.2.2.2⟩

/-! ## The stand-in libraries have the assumed facts -/

set_option maxRecDepth 1000000 in
theorem exampleCrypto_byte (x : Fin 256) : (Fin.ofNat (Char.ofNat x.val).toNat : Fin 256) = x := by
  revert x
  decide

theorem exampleCrypto_decode_encode (data : Bytes) :
    exampleCrypto.stdDecodeString (exampleCrypto.stdEncodeToString data) = .ok data := by
  simp only [exampleCrypto, List.map_map, Except.ok.injEq]
  conv_rhs => rw [← List.map_id data]
  apply List.map_congr_left
  intro x _
  exact exampleCrypto_byte x

theorem exampleCrypto_DecodeUndoesEncode : exampleCrypto.DecodeUndoesEncode :=
  exampleCrypto_decode_encode

theorem exampleCrypto_URLEncodingInjective : exampleCrypto.URLEncodingInjective := by
  intro a b h
  have ha := exampleCrypto_decode_encode a
  have hb := exampleCrypto_decode_encode b
  have h2 : exampleCrypto.stdEncodeToString a = exampleCrypto.stdEncodeToString b := h
  rw [h2, hb] at ha
  exact (Except.ok.inj ha).symm

theorem exampleCrypto_KeyHasLength : exampleCrypto.KeyHasLength := by
  intro password salt time memory threads keyLen
  simp only [exampleCrypto, List.length_take, List.length_append, List.length_replicate]
  omega

theorem exampleCrypto_OpenUndoesSeal : exampleCrypto.OpenUndoesSeal := by
  intro key nonce plaintext
  simp [exampleCrypto]

/-! ## C12: what `Login` answers to a failed attempt -/

theorem FindUsername_missing (username : String) (db : DB)
    (h : ∀ row ∈ db.users, row.username ≠ username) :
    FindUsername username db = (("", ""), some errNoRows) := by
  unfold FindUsername
  cases hf : db.users.find? (fun u => decide (u.username = username)) with
  | none => rfl
  | some u =>
    have h1 := List.find?_some hf
    have h2 := List.mem_of_find?_eq_some hf
    simp only [decide_eq_true_eq] at h1
    exact absurd h1 (h u h2)

/-- C12 (evaluation of the code): two failed login attempts with well-formed
bodies, the first for a user name that has no row, the second for an existing
user whose password check returns `false`, both get status 400, but the first
is answered with the text of `sql.ErrNoRows` and the second with
`Ошибка учетной записи`, so the two responses differ. -/
theorem login_failures_are_distinguishable (lib : Crypto) (key : String) (clock : LoginClock)
    (db : DB) (u1 p1 u2 p2 storedHash storedSalt : String)
    (hu1 : u1 ≠ "") (hp1 : p1 ≠ "") (hu2 : u2 ≠ "") (hp2 : p2 ≠ "")
    (hmissing : ∀ row ∈ db.users, row.username ≠ u1)
    (hfound : FindUsername u2 db = ((storedHash, storedSalt), none))
    (hwrong : VerifyPassword lib (bytesOf p2) storedHash (bytesOf storedSalt) = (false, none)) :
    Login lib (.credentials u1 p1) key clock db
      = (⟨400, [("error", .text "sql: no rows in result set")]⟩, db) ∧
    Login lib (.credentials u2 p2) key clock db
      = (⟨400, [("error", .text "Ошибка учетной записи")]⟩, db) ∧
    (Login lib (.credentials u1 p1) key clock db).1
      ≠ (Login lib (.credentials u2 p2) key clock db).1 := by
  have h1 : Login lib (.credentials u1 p1) key clock db
      = (⟨400, [("error", .text "sql: no rows in result set")]⟩, db) := by
    unfold Login
    simp only [ShouldBindJSON, if_neg hu1, if_neg hp1, FindUsername_missing u1 db hmissing]
    rfl
  have h2 : Login lib (.credentials u2 p2) key clock db
      = (⟨400, [("error", .text "Ошибка учетной записи")]⟩, db) := by
    unfold Login
    simp only [ShouldBindJSON, if_neg hu2, if_neg hp2, hfound, hwrong]
  refine ⟨h1, h2, ?_⟩
  rw [h1, h2]
  intro h
  have hbody := congrArg Response.body h
  simp only [List.cons.injEq, Prod.mk.injEq, BodyValue.text.injEq, true_and, and_true] at hbody
  exact absurd hbody (by decide)

/-- Witness for `login_failures_are_distinguishable`: a login as `nobody`, who
has no account, and a login as `alice` with a wrong password. -/
theorem login_failures_are_distinguishable_witness :
    Login exampleCrypto (.credentials "nobody" "x") "k" ⟨1, 2, 3⟩ exampleDB
      = (⟨400, [("error", .text "sql: no rows in result set")]⟩, exampleDB) ∧
    Login exampleCrypto (.credentials "alice" "wrong") "k" ⟨1, 2, 3⟩ exampleDB
      = (⟨400, [("error", .text "Ошибка учетной записи")]⟩, exampleDB) ∧
    (Login exampleCrypto (.credentials "nobody" "x") "k" ⟨1, 2, 3⟩ exampleDB).1
      ≠ (Login exampleCrypto (.credentials "alice" "wrong") "k" ⟨1, 2, 3⟩ exampleDB).1 :=
  login_failures_are_distinguishable exampleCrypto "k" ⟨1, 2, 3⟩ exampleDB
    "nobody" "x" "alice" "wrong" "h" "s"
    (by decide) (by decide) (by decide) (by decide) (by decide) (by decide) (by decide)

/-! ## C13: rotation rewrites one row in place -/

theorem ValidateRefreshToken_of_stored (tok : TokenString) (key : String) (now : Nat)
    (db db1 : DB) (h : ValidateRefreshToken tok key now db = (true, none))
    (hstored : ∃ r ∈ db1.refresh_tokens, r.token = tok) :
    ValidateRefreshToken tok key now db1 = (true, none) := by
  have hs := ValidateRefreshToken_true_stored tok key now db (by rw [h])
  unfold ValidateRefreshToken at h ⊢
  rw [queryRefreshToken_of_mem db tok hs] at h
  rw [queryRefreshToken_of_mem db1 tok hstored]
  exact h

theorem execUpdateRefreshToken_ok (db db1 : DB) (old new : TokenString) (expiresAt : Nat)
    (h : db.execUpdateRefreshToken new expiresAt old = .ok db1) :
    db1 = { db with refresh_tokens := db.refresh_tokens.map (fun r =>
      if r.token = old then { r with token := new, expires_at := expiresAt } else r) } := by
  unfold DB.execUpdateRefreshToken at h
  dsimp only at h
  split at h
  · simp at h
  · simp only [Except.ok.injEq] at h
    exact h.symm

theorem UpdateRefreshToken_table (old new : TokenString) (now : Nat) (db : DB) :
    (UpdateRefreshToken old new now db).2
      = { db with refresh_tokens := db.refresh_tokens.map (fun row =>
            if row.token = old ∧ (UpdateRefreshToken old new now db).1 = none then
              { row with token := new, expires_at := now + 30 * 24 * hour }
            else row) } := by
  unfold UpdateRefreshToken
  rcases hres : db.execUpdateRefreshToken new (now + 30 * 24 * hour) old with e | db1
  · simp
  · simp only [and_true]
    exact execUpdateRefreshToken_ok db db1 old new _ hres

theorem rewritten_count (old new : TokenString) (expiresAt : Nat) (rows : List RefreshTokenRow)
    (hfresh : ∀ row ∈ rows, row.token ≠ new) :
    (List.filter (fun r : RefreshTokenRow => decide (r.token = new))
      (rows.map (fun r =>
        if r.token = old then { r with token := new, expires_at := expiresAt } else r))).length
      = (rows.filter (fun r => decide (r.token = old))).length := by
  induction rows with
  | nil => rfl
  | cons row rest ih =>
    have hrest : ∀ r ∈ rest, r.token ≠ new := fun r hr => hfresh r (List.mem_cons_of_mem _ hr)
    have hrow : row.token ≠ new := hfresh row (List.mem_cons_self _ _)
    by_cases h : row.token = old
    · simp [List.filter_cons, h, ih hrest]
    · simp [List.filter_cons, h, hrow, ih hrest]

theorem filter_token_length_le_one (tok : TokenString) (rows : List RefreshTokenRow)
    (huniq : (rows.map (·.token)).Nodup) :
    (rows.filter (fun r => decide (r.token = tok))).length ≤ 1 := by
  induction rows with
  | nil => simp
  | cons row rest ih =>
    simp only [List.map_cons, List.nodup_cons, List.mem_map, not_exists, not_and] at huniq
    obtain ⟨hnot, hnodup⟩ := huniq
    by_cases h : row.token = tok
    · have hnone : rest.filter (fun r => decide (r.token = tok)) = [] := by
        rw [List.filter_eq_nil_iff]
        intro r hr
        simp only [decide_eq_true_eq]
        intro hrt
        exact hnot r hr (by rw [hrt, h])
      simp [List.filter_cons, h, hnone]
    · simp only [List.filter_cons, h, decide_False, Bool.false_eq_true, if_false]
      exact ih hnodup

/-- C13: for a refresh-token table whose token values are unique and any pair
of old and new token, `UpdateRefreshToken(old, new)` returns the database with
the other tables untouched and with the refresh-token table mapped row by row:
a row whose token is `old` gets the new token and the new expiry and keeps its
id, user id and creation time (or, when the update is rejected, stays as it is),
and every other row is unchanged. So the number of rows is the same, at most
one row is rewritten, every token other than `old` that validated before still
validates, and the update is carried out whenever the new value is not stored
yet. -/
theorem rotation_rewrites_one_row_in_place (db : DB) (old new : TokenString) (now : Nat)
    (huniq : (db.refresh_tokens.map (·.token)).Nodup) :
    (UpdateRefreshToken old new now db).2.refresh_tokens
      = db.refresh_tokens.map (fun row =>
          if row.token = old ∧ (UpdateRefreshToken old new now db).1 = none then
            { row with token := new, expires_at := now + 30 * 24 * hour }
          else row) ∧
    (UpdateRefreshToken old new now db).2.refresh_tokens.length = db.refresh_tokens.length ∧
    (UpdateRefreshToken old new now db).2.users = db.users ∧
    (UpdateRefreshToken old new now db).2.messages = db.messages ∧
    (∀ row1 ∈ db.refresh_tokens, ∀ row2 ∈ db.refresh_tokens,
      row1.token = old → row2.token = old → row1 = row2) ∧
    (∀ row ∈ db.refresh_tokens, row.token ≠ old →
      row ∈ (UpdateRefreshToken old new now db).2.refresh_tokens) ∧
    (∀ (tok : TokenString) (key : String) (t : Nat), tok ≠ old →
      ValidateRefreshToken tok key t db = (true, none) →
      ValidateRefreshToken tok key t (UpdateRefreshToken old new now db).2 = (true, none)) ∧
    ((∀ row ∈ db.refresh_tokens, row.token ≠ new) →
      (UpdateRefreshToken old new now db).1 = none) := by
  have htable := UpdateRefreshToken_table old new now db
  have hkeep : ∀ row ∈ db.refresh_tokens, row.token ≠ old →
      row ∈ (UpdateRefreshToken old new now db).2.refresh_tokens := by
    intro row hrow hne
    rw [htable]
    simp only [List.mem_map]
    exact ⟨row, hrow, by simp [hne]⟩
  refine ⟨by rw [htable], ?_, by rw [htable], by rw [htable], ?_, hkeep, ?_, ?_⟩
  · rw [htable]
    simp
  · intro row1 h1 row2 h2 ht1 ht2
    exact List.inj_on_of_nodup_map huniq h1 h2 (by rw [ht1, ht2])
  · intro tok key t hne hval
    obtain ⟨r, hr, hrt⟩ := ValidateRefreshToken_true_stored tok key t db (by rw [hval])
    exact ValidateRefreshToken_of_stored tok key t db _ hval
      ⟨r, hkeep r hr (by rw [hrt]; exact hne), hrt⟩
  · intro hfresh
    unfold UpdateRefreshToken DB.execUpdateRefreshToken
    dsimp only
    have hcount : (List.filter (fun r : RefreshTokenRow => decide (r.token = new))
        (db.refresh_tokens.map (fun r =>
          if r.token = old then { r with token := new, expires_at := now + 30 * 24 * hour }
          else r))).length ≤ 1 := by
      rw [rewritten_count old new _ _ hfresh]
      exact filter_token_length_le_one old _ huniq
    have hnot : ¬ ((db.refresh_tokens.any fun r => decide (r.token = old)) = true ∧
        1 < (List.filter (fun r : RefreshTokenRow => decide (r.token = new))
          (db.refresh_tokens.map (fun r =>
            if r.token = old then { r with token := new, expires_at := now + 30 * 24 * hour }
            else r))).length) := by
      intro h
      omega
    rw [if_neg hnot]

/-- Witness for `rotation_rewrites_one_row_in_place`: of the two tokens stored
for `alice`, the older is rotated at instant 4000000000; the table keeps its two
rows, the update is carried out, and the other token still validates. -/
theorem rotation_rewrites_one_row_in_place_witness :
    (exampleTwoTokensDB.refresh_tokens.map (·.token)).Nodup ∧
    (UpdateRefreshToken exampleRefreshToken newestRefreshToken 4000000000
        exampleTwoTokensDB).2.refresh_tokens.length = exampleTwoTokensDB.refresh_tokens.length ∧
    (UpdateRefreshToken exampleRefreshToken newestRefreshToken 4000000000
        exampleTwoTokensDB).1 = none ∧
    ValidateRefreshToken laterRefreshToken "k" 4000000001
        (UpdateRefreshToken exampleRefreshToken newestRefreshToken 4000000000
          exampleTwoTokensDB).2 = (true, none) :=
  have h := rotation_rewrites_one_row_in_place exampleTwoTokensDB exampleRefreshToken
    newestRefreshToken 4000000000 (by decide)
  ⟨by decide, h.2.1, h.2.2.2.2.2.2.2 (by decide),
    h.2.2.2.2.2.2.1 laterRefreshToken "k" 4000000001 (by decide) (by decide)⟩

/-! ## C14: a validated refresh token has a live row -/

theorem SetRefreshTokenDB_rows (username : String) (token : TokenString) (now : Nat) (db : DB) :
    (SetRefreshTokenDB username token now db).2.refresh_tokens = db.refresh_tokens ∨
    ∃ id userID, (SetRefreshTokenDB username token now db).2.refresh_tokens
      = db.refresh_tokens ++
        [{ id := id, user_id := userID, token := token, expires_at := now + 30 * 24 * hour,
           created_at := now }] := by
  unfold SetRefreshTokenDB
  split
  · left
    split <;> rfl
  · rename_i userID _
    unfold DB.execInsertRefreshToken
    dsimp only
    split
    · rename_i heq
      split at heq
      · left
        rfl
      · simp at heq
    · rename_i db1 heq
      split at heq
      · simp at heq
      · simp only [Except.ok.injEq] at heq
        right
        exact ⟨_, userID, by rw [← heq]⟩

theorem Login_rows (lib : Crypto) (body : LoginBody) (secretKey : String) (clock : LoginClock)
    (db : DB) :
    (Login lib body secretKey clock db).2.refresh_tokens = db.refresh_tokens ∨
    ∃ username id userID, (Login lib body secretKey clock db).2.refresh_tokens
      = db.refresh_tokens ++
        [{ id := id, user_id := userID,
           token := .jws .HS256
             (generatedClaims username (unix (clock.atRefresh + 30 * 24 * hour)) "refresh")
             secretKey,
           expires_at := clock.atStore + 30 * 24 * hour, created_at := clock.atStore }] := by
  unfold Login
  split
  · left; rfl
  · rename_i username password _
    split
    · left; rfl
    · split
      · left; rfl
      · left; rfl
      · simp only [generateAccessToken_eq, generateRefreshToken_eq]
        rcases SetRefreshTokenDB_rows username
          (.jws .HS256
            (generatedClaims username (unix (clock.atRefresh + 30 * 24 * hour)) "refresh")
            secretKey) clock.atStore db with h | ⟨id, userID, h⟩
        · left
          split <;> (rename_i heq; rw [heq] at h; simpa using h)
        · right
          refine ⟨username, id, userID, ?_⟩
          split <;> (rename_i heq; rw [heq] at h; simpa using h)

theorem RefreshToken_rows (authorizationHeader : AuthorizationHeader) (secretKey : String)
    (clock : RefreshClock) (db : DB) :
    (RefreshToken authorizationHeader secretKey clock db).2.refresh_tokens = db.refresh_tokens ∨
    ∃ username old, (RefreshToken authorizationHeader secretKey clock db).2.refresh_tokens
      = db.refresh_tokens.map (fun r =>
          if r.token = old then
            { r with
              token := .jws .HS256
                (generatedClaims username (unix (clock.atRefresh + 30 * 24 * hour)) "refresh")
                secretKey
              expires_at := clock.atUpdate + 30 * 24 * hour }
          else r) := by
  unfold RefreshToken
  split
  · left; rfl
  · rename_i token _
    split
    · left; rfl
    · left; rfl
    · split
      · left; rfl
      · split
        · rename_i username _
          simp only [generateAccessToken_eq, generateRefreshToken_eq]
          have ht := UpdateRefreshToken_table token
            (.jws .HS256
              (generatedClaims username (unix (clock.atRefresh + 30 * 24 * hour)) "refresh")
              secretKey) clock.atUpdate db
          split
          · rename_i e db1 heq
            rw [heq] at ht
            simp only at ht
            left
            rw [ht]
            simp
          · rename_i db1 heq
            rw [heq] at ht
            simp only [and_true] at ht
            right
            exact ⟨username, token, by rw [ht]⟩
        · left; rfl

theorem rowsOutliveTokens_of_reachable (lib : Crypto) (secretKey : String) (db : DB)
    (h : Reachable lib secretKey db) : RowsOutliveTokens secretKey db := by
  induction h with
  | init db hempty =>
    intro row hrow
    rw [hempty] at hrow
    simp at hrow
  | login db body clock _ hclock ih =>
    intro row hrow
    rcases Login_rows lib body secretKey clock db with h | ⟨username, id, userID, h⟩
    · rw [h] at hrow
      exact ih row hrow
    · rw [h] at hrow
      simp only [List.mem_append, List.mem_singleton] at hrow
      rcases hrow with hrow | hrow
      · exact ih row hrow
      · subst hrow
        exact ⟨username, clock.atRefresh, rfl, by simp only; omega⟩
  | refresh db authorizationHeader clock _ hclock ih =>
    intro row hrow
    rcases RefreshToken_rows authorizationHeader secretKey clock db with h | ⟨username, old, h⟩
    · rw [h] at hrow
      exact ih row hrow
    · rw [h] at hrow
      simp only [List.mem_map] at hrow
      obtain ⟨r0, hr0, hrow⟩ := hrow
      by_cases hold : r0.token = old
      · rw [if_pos hold] at hrow
        subst hrow
        exact ⟨username, clock.atRefresh, rfl, by simp only; omega⟩
      · rw [if_neg hold] at hrow
        subst hrow
        exact ih r0 hr0
  | elsewhere db db1 _ hsame ih =>
    intro row hrow
    rw [hsame] at hrow
    exact ih row hrow

theorem ValidateRefreshToken_true_parse (tok : TokenString) (key : String) (now : Nat) (db : DB)
    (h : (ValidateRefreshToken tok key now db).1 = true) :
    ∃ token, jwtParse tok key now = .ok token := by
  unfold ValidateRefreshToken at h
  split at h
  · simp at h
  · rename_i token heq
    exact ⟨token, heq⟩

theorem ValidateRefreshToken_result (tok : TokenString) (key : String) (now : Nat) (db : DB) :
    ValidateRefreshToken tok key now db = (true, none) ∨
    ∃ e, ValidateRefreshToken tok key now db = (false, some e) := by
  unfold ValidateRefreshToken
  split
  · exact Or.inr ⟨_, rfl⟩
  · split
    · exact Or.inr ⟨_, rfl⟩
    · split
      · split
        · exact Or.inr ⟨_, rfl⟩
        · split
          · split
            · exact Or.inr ⟨_, rfl⟩
            · exact Or.inr ⟨_, rfl⟩
          · exact Or.inl rfl
      · exact Or.inr ⟨_, rfl⟩

theorem unix_mul_second_le (x : Nat) : unix x * (second : Int) ≤ (x : Int) := by
  unfold unix
  rw [second_eq]
  push_cast
  omega

/-- C14: in every state of the database reachable through the `Login` and
`RefreshToken` handlers, whenever `ValidateRefreshToken` accepts a token string
at an instant, the refresh-token table holds a row whose token is exactly that
string and whose `expires_at` lies after that instant; and a token string for
which there is no such row yields `(false, error)`, however well signed,
unexpired and tagged it is. -/
theorem validated_refresh_token_has_live_row (lib : Crypto) (secretKey : String) (db : DB)
    (hreach : Reachable lib secretKey db) (tok : TokenString) (key : String) (now : Nat) :
    ((ValidateRefreshToken tok key now db).1 = true →
      ∃ row ∈ db.refresh_tokens, row.token = tok ∧ now < row.expires_at) ∧
    ((¬ ∃ row ∈ db.refresh_tokens, row.token = tok ∧ now < row.expires_at) →
      ∃ e, ValidateRefreshToken tok key now db = (false, some e)) := by
  have hinv := rowsOutliveTokens_of_reachable lib secretKey db hreach
  have hfirst : (ValidateRefreshToken tok key now db).1 = true →
      ∃ row ∈ db.refresh_tokens, row.token = tok ∧ now < row.expires_at := by
    intro hacc
    obtain ⟨row, hrow, htok⟩ := ValidateRefreshToken_true_stored tok key now db hacc
    obtain ⟨username, t, hgen, hexp⟩ := hinv row hrow
    obtain ⟨token, hparse⟩ := ValidateRefreshToken_true_parse tok key now db hacc
    refine ⟨row, hrow, htok, ?_⟩
    rw [← htok, hgen] at hparse
    obtain ⟨-, hkey⟩ := jwtParse_jws_ok _ _ _ _ _ _ hparse
    subst hkey
    have h0 : unix (t + 30 * 24 * hour) ≠ 0 := by
      have := unix_add_pos t (30 * 24) (by decide)
      simpa [Nat.mul_assoc] using this
    have hlive : (now : Int) < unix (t + 30 * 24 * hour) * (second : Int) := by
      by_contra hnot
      rw [jwtParse_generated_expired _ _ _ _ _ h0 (not_lt.mp hnot)] at hparse
      simp at hparse
    have hfloor := unix_mul_second_le (t + 30 * 24 * hour)
    have : (now : Int) < ((t + 30 * 24 * hour : Nat) : Int) := lt_of_lt_of_le hlive hfloor
    have h2 : now < t + 30 * 24 * hour := by exact_mod_cast this
    omega
  refine ⟨hfirst, ?_⟩
  intro hno
  rcases ValidateRefreshToken_result tok key now db with h | h
  · exact absurd (hfirst (by rw [h])) hno
  · exact h

/-- Witness for `validated_refresh_token_has_live_row`: after `alice` has logged
in, her refresh token is accepted at instant 7, and the table holds its row,
which expires later. -/
theorem validated_refresh_token_has_live_row_witness :
    Reachable exampleCrypto "k" exampleAfterLoginDB ∧
    (Login exampleCrypto (.credentials "alice" "pw") "k" ⟨3, 5, 6⟩ exampleAccountDB).1.status
      = 200 ∧
    ValidateRefreshToken exampleRefreshToken "k" 7 exampleAfterLoginDB = (true, none) ∧
    ∃ row ∈ exampleAfterLoginDB.refresh_tokens,
      row.token = exampleRefreshToken ∧ 7 < row.expires_at :=
  have hreach : Reachable exampleCrypto "k" exampleAfterLoginDB :=
    .login exampleAccountDB (.credentials "alice" "pw") ⟨3, 5, 6⟩ (.init _ rfl) (by decide)
  ⟨hreach, by decide, by decide,
    (validated_refresh_token_has_live_row exampleCrypto "k" exampleAfterLoginDB hreach
      exampleRefreshToken "k" 7).1 (by decide)⟩

/-! ## C15: which lock is held when the registry is mutated -/

theorem WriteMessage_broken (conn : Conn) (data : Payload) (w : World) :
    (WriteMessage conn data w).2.broken = w.broken := by
  unfold WriteMessage
  split <;> rfl

theorem WriteMessage_fails_of_broken (conn : Conn) (data : Payload) (w : World)
    (h : conn ∈ w.broken) : ∃ e w1, WriteMessage conn data w = (some e, w1) := by
  unfold WriteMessage
  rw [if_pos (Or.inr h)]
  exact ⟨_, _, rfl⟩

theorem broadcast_events_deletes (data : Payload) (entries : List (String × Conn)) (w : World) :
    ∀ ev ∈ broadcast_events data entries w, ∃ key, ev = .mapDelete key := by
  induction entries generalizing w with
  | nil => simp [broadcast_events]
  | cons e rest ih =>
    obtain ⟨username, conn⟩ := e
    unfold broadcast_events
    split
    · intro ev hev
      simp only [List.mem_cons] at hev
      rcases hev with hev | hev
      · exact ⟨username, hev⟩
      · exact ih _ ev hev
    · exact ih _

theorem broadcast_events_ne_nil (data : Payload) (entries : List (String × Conn)) (w : World)
    (user : String) (conn : Conn) (hreg : (user, conn) ∈ entries) (hgone : conn ∈ w.broken) :
    broadcast_events data entries w ≠ [] := by
  induction entries generalizing w with
  | nil => simp at hreg
  | cons e rest ih =>
    obtain ⟨username, c⟩ := e
    unfold broadcast_events
    split
    · simp
    · rename_i w1 heq
      simp only [List.mem_cons, Prod.mk.injEq] at hreg
      rcases hreg with ⟨-, hc⟩ | hreg
      · subst hc
        obtain ⟨e, w2, hfail⟩ := WriteMessage_fails_of_broken conn data w hgone
        rw [hfail] at heq
        simp at heq
      · apply ih _ hreg
        have hb := WriteMessage_broken c data w
        rw [heq] at hb
        simp only at hb
        rw [hb]
        exact hgone

theorem not_mutatesUnderLock_of_delete (events : List LockEvent)
    (hall : ∀ ev ∈ events, ∃ key, ev = .mapDelete key) (hne : events ≠ []) :
    mutatesUnderLock .unlocked ([.RLock] ++ events ++ [.RUnlock]) = false := by
  cases events with
  | nil => exact absurd rfl hne
  | cons ev rest =>
    obtain ⟨key, hkey⟩ := hall ev (List.mem_cons_self _ _)
    subst hkey
    rfl

theorem mutatesUnderLock_deliver_events (user : String) (conn : Conn) (data : Payload)
    (w : World) (rest : List LockEvent) :
    mutatesUnderLock .unlocked (deliver_events user conn data w ++ rest)
      = mutatesUnderLock .unlocked rest := by
  unfold deliver_events
  split
  · dsimp only
    split <;> rfl
  · rfl

/-- The events given for the broadcast loop agree with its effect on the state:
the registry after the loop is the registry before it with exactly the keys of
the recorded deletions deleted. -/
theorem broadcast_clients_eq_deletions (data : Payload) (entries : List (String × Conn))
    (w : World) :
    (broadcast data entries w).clients
      = (deletedKeys (broadcast_events data entries w)).foldl mapDelete w.clients := by
  induction entries generalizing w with
  | nil => rfl
  | cons e rest ih =>
    obtain ⟨username, conn⟩ := e
    have hw := WriteMessage_clients conn data w
    unfold broadcast broadcast_events
    split
    · rename_i w1 heq
      rw [heq] at hw
      simp only at hw
      rw [ih]
      simp only [deletedKeys, List.filterMap_cons, List.foldl_cons, Close, hw]
    · rename_i w1 heq
      rw [heq] at hw
      simp only at hw
      rw [ih, hw]

/-- C15 (evaluation of the code): in the connect phase and the disconnect path
of `WebSocketHandler` and in `sendPrivateMessage`, every assignment to and
deletion from `clients` is made between `Lock` and `Unlock`. But in
`SendDeleteMessageNotification` and `SendEditMessageNotification` the deletion
that follows a failed write is made while only the read lock, taken by `RLock`
on entry, is held: whenever some registered connection's peer is gone, their
sequence of events contains a deletion without the exclusive lock. -/
theorem broadcast_deletes_under_read_lock :
    (∀ tokenString secretKey now upgrade,
      mutatesUnderLock .unlocked
        (WebSocketHandler_connect_events tokenString secretKey now upgrade) = true) ∧
    (∀ username, mutatesUnderLock .unlocked (WebSocketHandler_disconnect_events username) = true) ∧
    (∀ msg w, mutatesUnderLock .unlocked (sendPrivateMessage_events msg w) = true) ∧
    (∀ (w : World) (messageID : Int) (newContent user : String) (conn : Conn),
      (user, conn) ∈ w.clients → conn ∈ w.broken →
      mutatesUnderLock .unlocked (SendDeleteMessageNotification_events messageID w) = false ∧
      mutatesUnderLock .unlocked (SendEditMessageNotification_events messageID newContent w)
        = false) := by
  refine ⟨?_, ?_, ?_, ?_⟩
  · intro tokenString secretKey now upgrade
    unfold WebSocketHandler_connect_events
    split
    · rfl
    · split <;> rfl
  · intro username
    rfl
  · intro msg w
    unfold sendPrivateMessage_events
    dsimp only
    have h4 : ∀ rest, mutatesUnderLock .unlocked
        ([LockEvent.RLock, .mapRead msg.To, .mapRead msg.From, .RUnlock] ++ rest)
        = mutatesUnderLock .unlocked rest := fun _ => rfl
    rw [List.append_assoc, h4]
    have hone : ∀ user conn data w1,
        mutatesUnderLock .unlocked (deliver_events user conn data w1) = true := by
      intro user conn data w1
      rw [← List.append_nil (deliver_events user conn data w1), mutatesUnderLock_deliver_events]
      rfl
    cases hR : mapGet w.clients msg.To <;> cases hS : mapGet w.clients msg.From <;> dsimp only
    · rfl
    · rw [List.nil_append]
      exact hone _ _ _ _
    · rw [List.append_nil]
      exact hone _ _ _ _
    · rw [mutatesUnderLock_deliver_events]
      exact hone _ _ _ _
  · intro w messageID newContent user conn hreg hgone
    constructor
    · exact not_mutatesUnderLock_of_delete _ (broadcast_events_deletes _ _ _)
        (broadcast_events_ne_nil _ _ _ user conn hreg hgone)
    · exact not_mutatesUnderLock_of_delete _ (broadcast_events_deletes _ _ _)
        (broadcast_events_ne_nil _ _ _ user conn hreg hgone)

/-- Witness for `broadcast_deletes_under_read_lock`: the broadcast of a deletion
in a state where the peer of `bob` is gone. -/
theorem broadcast_deletes_under_read_lock_witness :
    SendDeleteMessageNotification_events 1 exampleWorld
      = [.RLock, .mapDelete "bob", .RUnlock] ∧
    mutatesUnderLock .unlocked (SendDeleteMessageNotification_events 1 exampleWorld) = false ∧
    mutatesUnderLock .unlocked (SendEditMessageNotification_events 1 "new" exampleWorld)
      = false :=
  ⟨by decide,
   (broadcast_deletes_under_read_lock.2.2.2 exampleWorld 1 "new" "bob" ⟨2⟩
      (by decide) (by decide)).1,
   (broadcast_deletes_under_read_lock.2.2.2 exampleWorld 1 "new" "bob" ⟨2⟩
      (by decide) (by decide)).2⟩

/-! ## C16: `HashPassword` -/

/-- C16: with the key derivation any function that returns keys of the requested
length and the base64url encoding injective, `HashPassword` never fails, its
result is the encoding of the salt bytes followed by the 32-byte key derived
from password and salt (so it is determined by password and salt), and two
different salts give two different results, for the same password or for any two
passwords. -/
theorem HashPassword_separates_salts (lib : Crypto) (hlen : lib.KeyHasLength)
    (hinj : lib.URLEncodingInjective) (p1 p2 s1 s2 : Bytes) :
    HashPassword lib p1 s1
      = (lib.urlEncodeToString (s1 ++ lib.IDKey p1 s1 1 (64 * 1024) 1 32), none) ∧
    (lib.IDKey p1 s1 1 (64 * 1024) 1 32).length = 32 ∧
    (s1 ≠ s2 → (HashPassword lib p1 s1).1 ≠ (HashPassword lib p2 s2).1) := by
  refine ⟨rfl, hlen _ _ _ _ _ _, ?_⟩
  intro hne heq
  have h := hinj _ _ heq
  have hl : (lib.IDKey p1 s1 1 (64 * 1024) 1 32).length
      = (lib.IDKey p2 s2 1 (64 * 1024) 1 32).length := by
    rw [hlen, hlen]
  exact hne (List.append_inj' h hl).1

/-- Witness for `HashPassword_separates_salts`, with the stand-in libraries:
the password `pw` hashed with the salts `a` and `b`. -/
theorem HashPassword_separates_salts_witness :
    exampleCrypto.KeyHasLength ∧ exampleCrypto.URLEncodingInjective ∧
    bytesOf "a" ≠ bytesOf "b" ∧
    (HashPassword exampleCrypto (bytesOf "pw") (bytesOf "a")).2 = none ∧
    (HashPassword exampleCrypto (bytesOf "pw") (bytesOf "a")).1
      ≠ (HashPassword exampleCrypto (bytesOf "pw") (bytesOf "b")).1 :=
  ⟨exampleCrypto_KeyHasLength, exampleCrypto_URLEncodingInjective, by decide, rfl,
    (HashPassword_separates_salts exampleCrypto exampleCrypto_KeyHasLength
      exampleCrypto_URLEncodingInjective (bytesOf "pw") (bytesOf "pw") (bytesOf "a")
      (bytesOf "b")).2.2 (by decide)⟩

/-! ## C17: eviction after a failed write in `sendPrivateMessage` -/

theorem sendPrivateMessage_amid_id (msg : Message) (w : World) :
    sendPrivateMessage_amid id id msg w = sendPrivateMessage msg w := by
  unfold sendPrivateMessage_amid sendPrivateMessage sendMessagePayload
  rfl

/-- C17: each of the two delivery blocks of `sendPrivateMessage` is `deliver`
applied to the connection that was looked up for the user and to the state at
the moment the block runs, whatever other goroutines did since the lookup. When
the write on that connection fails, the registry afterwards is the registry of
that moment with the user's entry deleted if it still maps the user to that very
connection, and the registry of that moment unchanged otherwise; so an entry
made by a re-registration with another connection is kept, and the entries of
all other users are the same in both cases. -/
theorem failed_write_evicts_only_same_connection (user : String) (conn : Conn)
    (data : Payload) (w : World) (hfail : conn ∈ w.closed ∨ conn ∈ w.broken) :
    (deliver user conn data w).clients
      = (if mapGet w.clients user = some conn then mapDelete w.clients user else w.clients) ∧
    (mapGet w.clients user = some conn → mapGet (deliver user conn data w).clients user = none) ∧
    (∀ other : Conn, other ≠ conn → mapGet w.clients user = some other →
      mapGet (deliver user conn data w).clients user = some other) ∧
    (∀ u, u ≠ user → mapGet (deliver user conn data w).clients u = mapGet w.clients u) ∧
    (∀ (afterLookup betweenBlocks : World → World) (msg : Message) (w0 : World)
        (recipientConn senderConn : Conn),
      mapGet w0.clients msg.To = some recipientConn →
      mapGet w0.clients msg.From = some senderConn →
      sendPrivateMessage_amid afterLookup betweenBlocks msg w0
        = deliver msg.From senderConn
            (sendMessagePayload msg.ID msg.From msg.To msg.Content msg.CreatedAt)
            (betweenBlocks
              (deliver msg.To recipientConn
                (sendMessagePayload msg.ID msg.From msg.To msg.Content msg.CreatedAt)
                (afterLookup w0)))) := by
  have hclients : (deliver user conn data w).clients
      = (if mapGet w.clients user = some conn then mapDelete w.clients user else w.clients) := by
    unfold deliver WriteMessage
    rw [if_pos hfail]
    dsimp only [Close]
    split <;> rfl
  refine ⟨hclients, ?_, ?_, ?_, ?_⟩
  · intro hsame
    rw [hclients, if_pos hsame]
    exact mapGet_mapDelete_self _ _
  · intro other hne hmap
    have hnot : ¬ mapGet w.clients user = some conn := by
      rw [hmap]
      intro h
      exact hne (Option.some.inj h)
    rw [hclients, if_neg hnot]
    exact hmap
  · intro u hu
    exact deliver_clients_other user u conn data w hu
  · intro afterLookup betweenBlocks msg w0 recipientConn senderConn hR hS
    unfold sendPrivateMessage_amid
    simp only [hR, hS]

/-- Witness for `failed_write_evicts_only_same_connection`: the write on
connection 2, whose peer is gone, fails; where the registry still maps `bob` to
connection 2 his entry is deleted, and where `bob` has re-registered with
connection 7 the registry is left as it is. -/
theorem failed_write_evicts_only_same_connection_witness :
    (deliver "bob" ⟨2⟩ (sendMessagePayload 3 "alice" "bob" "hi" 7) exampleWorld).clients
      = [("alice", ⟨1⟩), ("carol", ⟨3⟩)] ∧
    (deliver "bob" ⟨2⟩ (sendMessagePayload 3 "alice" "bob" "hi" 7) reconnectedWorld).clients
      = reconnectedWorld.clients ∧
    mapGet (deliver "bob" ⟨2⟩ (sendMessagePayload 3 "alice" "bob" "hi" 7)
      reconnectedWorld).clients "bob" = some ⟨7⟩ := by
  have h1 := failed_write_evicts_only_same_connection "bob" ⟨2⟩
    (sendMessagePayload 3 "alice" "bob" "hi" 7) exampleWorld (Or.inr (by decide))
  have h2 := failed_write_evicts_only_same_connection "bob" ⟨2⟩
    (sendMessagePayload 3 "alice" "bob" "hi" 7) reconnectedWorld (Or.inr (by decide))
  refine ⟨?_, ?_, h2.2.2.1 ⟨7⟩ (by decide) (by decide)⟩
  · rw [h1.1]
    decide
  · rw [h2.1]
    decide

/-! ## C18: `DecryptAES` undoes `EncryptAES` -/

theorem DecryptAES_of_parts (lib : Crypto) (hdec : lib.DecodeUndoesEncode)
    (hopen : lib.OpenUndoesSeal) (salt nonce plainText password : Bytes)
    (hsalt : salt.length = 16) (hnonce : nonce.length = 12)
    (hkey : aesNewCipher (deriveKeyArgon2id lib password salt) = .ok ()) :
    DecryptAES lib
        (lib.stdEncodeToString
          (salt ++ (nonce ++
            lib.gcmSeal (deriveKeyArgon2id lib password salt) nonce plainText)))
        password
      = .ok plainText := by
  unfold DecryptAES
  rw [hdec]
  have hlen16 : ¬ (salt ++ (nonce ++
      lib.gcmSeal (deriveKeyArgon2id lib password salt) nonce plainText)).length < 16 := by
    simp only [List.length_append, hsalt]
    omega
  have hlen28 : ¬ (salt ++ (nonce ++
      lib.gcmSeal (deriveKeyArgon2id lib password salt) nonce plainText)).length
        < 16 + gcmNonceSize := by
    simp only [List.length_append, hsalt, hnonce, gcmNonceSize]
    omega
  have htake : (salt ++ (nonce ++
      lib.gcmSeal (deriveKeyArgon2id lib password salt) nonce plainText)).take 16 = salt :=
    List.take_left' hsalt
  have hdrop : (salt ++ (nonce ++
      lib.gcmSeal (deriveKeyArgon2id lib password salt) nonce plainText)).drop 16
      = nonce ++ lib.gcmSeal (deriveKeyArgon2id lib password salt) nonce plainText :=
    List.drop_left' hsalt
  have hdrop28 : (salt ++ (nonce ++
      lib.gcmSeal (deriveKeyArgon2id lib password salt) nonce plainText)).drop
        (16 + gcmNonceSize)
      = lib.gcmSeal (deriveKeyArgon2id lib password salt) nonce plainText := by
    rw [← List.drop_drop, hdrop]
    exact List.drop_left' hnonce
  have hnonce2 : (nonce ++
      lib.gcmSeal (deriveKeyArgon2id lib password salt) nonce plainText).take gcmNonceSize
      = nonce := List.take_left' hnonce
  simp only [if_neg hlen16, if_neg hlen28, htake, hdrop, hdrop28, hnonce2, hkey]
  rw [hopen (deriveKeyArgon2id lib password salt) nonce plainText]

/-- C18: given that base64 decoding undoes encoding and that `Open` undoes `Seal`
under the same key and nonce, whenever `EncryptAES` returns a ciphertext without
error, whatever 16-byte salt and 12-byte nonce were drawn, `DecryptAES` with the
same password returns the plaintext without error; `EncryptAES` does return a
ciphertext when both draws succeed and the derived key has its 32 bytes; and
`DecryptAES` returns an error for every input whose base64-decoded length is
less than 16 + 12 bytes. -/
theorem decrypt_undoes_encrypt (lib : Crypto) (hdec : lib.DecodeUndoesEncode)
    (hopen : lib.OpenUndoesSeal) (saltDraw nonceDraw : Except String Bytes)
    (plainText password : Bytes)
    (hsalt : ∀ salt, saltDraw = .ok salt → salt.length = 16)
    (hnonce : ∀ nonce, nonceDraw = .ok nonce → nonce.length = 12) :
    (∀ cipherText, EncryptAES lib saltDraw nonceDraw plainText password = .ok cipherText →
      DecryptAES lib cipherText password = .ok plainText) ∧
    (lib.KeyHasLength → ∀ salt nonce, saltDraw = .ok salt → nonceDraw = .ok nonce →
      ∃ cipherText, EncryptAES lib saltDraw nonceDraw plainText password = .ok cipherText) ∧
    (∀ (text : String) (data pw : Bytes), lib.stdDecodeString text = .ok data →
      data.length < 16 + 12 → ∃ e, DecryptAES lib text pw = .error e) := by
  refine ⟨?_, ?_, ?_⟩
  · intro cipherText henc
    cases saltDraw with
    | error e => simp [EncryptAES] at henc
    | ok salt =>
      cases nonceDraw with
      | error e =>
        unfold EncryptAES at henc
        dsimp only at henc
        split at henc <;> simp at henc
      | ok nonce =>
        unfold EncryptAES at henc
        dsimp only at henc
        split at henc
        · simp at henc
        · rename_i hkey
          simp only [Except.ok.injEq] at henc
          rw [← henc]
          exact DecryptAES_of_parts lib hdec hopen salt nonce plainText password
            (hsalt salt rfl) (hnonce nonce rfl) hkey
  · intro hlen salt nonce hs hn
    have hkey : aesNewCipher (deriveKeyArgon2id lib password salt) = .ok () := by
      unfold aesNewCipher deriveKeyArgon2id
      rw [hlen]
      simp
    unfold EncryptAES
    simp only [hs, hn, hkey]
    exact ⟨_, rfl⟩
  · intro text data pw hdata hshort
    unfold DecryptAES
    rw [hdata]
    dsimp only
    split
    · exact ⟨_, rfl⟩
    · split
      · exact ⟨_, rfl⟩
      · have h28 : data.length < 16 + gcmNonceSize := hshort
        rw [if_pos h28]
        exact ⟨_, rfl⟩

/-- Witness for `decrypt_undoes_encrypt`, with the stand-in libraries: `hello`
encrypted under the password `pw` with sixteen bytes 1 as salt and twelve bytes 2
as nonce. -/
theorem decrypt_undoes_encrypt_witness :
    exampleCrypto.DecodeUndoesEncode ∧ exampleCrypto.OpenUndoesSeal ∧
    (∃ cipherText,
      EncryptAES exampleCrypto (.ok (List.replicate 16 1)) (.ok (List.replicate 12 2))
        (bytesOf "hello") (bytesOf "pw") = .ok cipherText ∧
      DecryptAES exampleCrypto cipherText (bytesOf "pw") = .ok (bytesOf "hello")) ∧
    (∃ e, DecryptAES exampleCrypto "short" (bytesOf "pw") = .error e) := by
  have h := decrypt_undoes_encrypt exampleCrypto exampleCrypto_DecodeUndoesEncode
    exampleCrypto_OpenUndoesSeal (.ok (List.replicate 16 1)) (.ok (List.replicate 12 2))
    (bytesOf "hello") (bytesOf "pw")
    (by intro salt hs; simp only [Except.ok.injEq] at hs; rw [← hs]; rfl)
    (by intro nonce hn; simp only [Except.ok.injEq] at hn; rw [← hn]; rfl)
  obtain ⟨c, hc⟩ := h.2.1 exampleCrypto_KeyHasLength _ _ rfl rfl
  exact ⟨exampleCrypto_DecodeUndoesEncode, exampleCrypto_OpenUndoesSeal,
    ⟨c, hc, h.1 c hc⟩,
    h.2.2 "short" (bytesOf "short") (bytesOf "pw") (by decide) (by decide)⟩

end Chat
